import Mathlib

/-!
Shallow embedding of the dynamic-dispatch engine of the RoarinAPI service
(`src/routes/dynamic.js`): the wildcard request handler registered by
`dynamicRoutes`, the condition evaluator `evaluateCondition`, and the
template functions `processTemplateVariables` / `processTemplateString`.

JavaScript strings are modelled as Lean `String` (a list of characters);
regular-expression replacement is modelled by explicit scanners over the
character list that mirror the left-to-right, non-overlapping, global
semantics of `String.prototype.replace`.  The opaque host-language calls
(`new Function(...)()`, the filesystem, asset lookup, base64 decoding and
the current clock) are supplied as explicit parameters in `Env`.
-/

namespace RoarinAPI

/-- Scalar JavaScript values as they occur in request query/header/body maps.
Structured bodies are not needed by any verified property, so body values are
restricted to scalars. -/
inductive JVal where
  | vStr (s : String)
  | vNum (n : Int)
  | vBool (b : Bool)
  | vNull
  deriving DecidableEq, Repr

/-- JavaScript truthiness of a scalar value. -/
def JVal.truthy : JVal → Bool
  | .vStr s => s ≠ ""
  | .vNum n => n ≠ 0
  | .vBool b => b
  | .vNull => false

/-- Template-literal coercion `${val}` of a scalar value to text. -/
def JVal.jsString : JVal → String
  | .vStr s => s
  | .vNum n => toString n
  | .vBool b => if b then "true" else "false"
  | .vNull => "null"

/-- Association-list lookup, modelling JavaScript property access `m[k]`
(`none` models `undefined`). -/
def lookupA {α : Type} : List (String × α) → String → Option α
  | [], _ => none
  | (k, v) :: rest, key => if k = key then some v else lookupA rest key

/-- JavaScript `a || b` on possibly-undefined values: `a` when truthy, else `b`. -/
def jsOr (a b : Option JVal) : Option JVal :=
  match a with
  | some v => if v.truthy then some v else b
  | none => b

/-- Truthiness of a possibly-undefined string (`undefined` and `""` are falsy). -/
def strTruthy : Option String → Bool
  | some s => s ≠ ""
  | none => false

/-- JavaScript `a || b` for a possibly-undefined string with a string default. -/
def jsStrOr (a : Option String) (b : String) : String :=
  match a with
  | some s => if s ≠ "" then s else b
  | none => b

/-- The failure test of required-parameter validation:
`value === undefined || value === null || value === ''`. -/
def isMissing : Option JVal → Bool
  | none => true
  | some .vNull => true
  | some (.vStr s) => s = ""
  | some _ => false

/-- ASCII lower-casing, as `String.prototype.toLowerCase` acts on the ASCII
header/parameter names used by the engine. -/
def lowerChar (c : Char) : Char :=
  if 'A' ≤ c ∧ c ≤ 'Z' then Char.ofNat (c.toNat + 32) else c

/-- ASCII lower-casing of a string. -/
def lowerStr (s : String) : String :=
  String.mk (s.toList.map lowerChar)

/-- The JavaScript `\w` character class: ASCII letters, digits, underscore. -/
def isWordChar (c : Char) : Bool :=
  ('a' ≤ c ∧ c ≤ 'z') ∨ ('A' ≤ c ∧ c ≤ 'Z') ∨ ('0' ≤ c ∧ c ≤ '9') ∨ c = '_'

/-- The JavaScript `\s` character class (whitespace). -/
def isJsSpace (c : Char) : Bool :=
  c.toNat ∈ [9, 10, 11, 12, 13, 32, 160, 0x1680, 0x2028, 0x2029, 0x202f,
    0x205f, 0x3000, 0xfeff] ∨ (0x2000 ≤ c.toNat ∧ c.toNat ≤ 0x200a)

/-- Prefix test on character lists (used in place of host regex anchoring). -/
def isPre : List Char → List Char → Bool
  | [], _ => true
  | _ :: _, [] => false
  | a :: as, b :: bs => a = b && isPre as bs

/-- `dropPre pat s` returns the remainder of `s` after the prefix `pat`,
when `pat` is a prefix of `s`. -/
def dropPre : List Char → List Char → Option (List Char)
  | [], s => some s
  | _ :: _, [] => none
  | a :: as, b :: bs => if a = b then dropPre as bs else none

/-- Global fixed-pattern replacement, modelling `s.replace(/pat/g, val)` for a
literal pattern: scan left to right, replace each non-overlapping occurrence,
never rescanning replacement output.  `fuel` bounds the number of scan steps;
callers pass the length of the input, which suffices because every step
consumes at least one input character. -/
def scanFix (pat val : List Char) : Nat → List Char → List Char
  | 0, s => s
  | _ + 1, [] => []
  | fuel + 1, c :: cs =>
    match dropPre pat (c :: cs) with
    | some rest => val ++ scanFix pat val fuel rest
    | none => c :: scanFix pat val fuel cs

/-- Global parametric replacement, modelling `s.replace(re, cb)` for a regex of
shape `pre(\w+)suf` with a greedy key: at each position, match the literal
prefix, then a maximal non-empty word-character run, then the literal suffix;
on success emit `cb key` and continue after the match, else advance one
character.  Backtracking the greedy run cannot help, because a shorter run
would end at a word character, which can never begin the suffix used here. -/
def scanVar (pre suf : List Char) (cb : String → String) : Nat → List Char → List Char
  | 0, s => s
  | _ + 1, [] => []
  | fuel + 1, c :: cs =>
    match dropPre pre (c :: cs) with
    | some rest =>
      let key := rest.takeWhile isWordChar
      let rest2 := rest.dropWhile isWordChar
      if key = [] then c :: scanVar pre suf cb fuel cs
      else
        match dropPre suf rest2 with
        | some rest3 => (cb (String.mk key)).toList ++ scanVar pre suf cb fuel rest3
        | none => c :: scanVar pre suf cb fuel cs
    | none => c :: scanVar pre suf cb fuel cs

/-- String-level wrapper for `scanFix`. -/
def replaceFix (pat val s : String) : String :=
  String.mk (scanFix pat.toList val.toList s.toList.length s.toList)

/-- String-level wrapper for `scanVar`. -/
def replaceVars (pre suf : String) (cb : String → String) (s : String) : String :=
  String.mk (scanVar pre.toList suf.toList cb s.toList.length s.toList)

/-- First-occurrence replacement by the empty string, modelling
`s.replace('pat', '')` for a literal string pattern. -/
def removeFirst (pat : List Char) : List Char → List Char
  | [] => []
  | c :: cs =>
    match dropPre pat (c :: cs) with
    | some rest => rest
    | none => c :: removeFirst pat cs

/-- Structured JSON payloads carried by response rules. -/
inductive JTree where
  | s (v : String)
  | n (v : Int)
  | b (v : Bool)
  | null
  | arr (items : List JTree)
  | obj (fields : List (String × JTree))

/-- JavaScript truthiness of a structured value (objects and arrays are always
truthy, even when empty). -/
def JTree.truthy : JTree → Bool
  | .s v => v ≠ ""
  | .n v => v ≠ 0
  | .b v => v
  | .null => false
  | .arr _ => true
  | .obj _ => true

mutual
/-- `String(x)` coercion of a structured value. -/
def JTree.jsString : JTree → String
  | .s v => v
  | .n v => toString v
  | .b v => if v then "true" else "false"
  | .null => "null"
  | .arr items => JTree.jsStringList items
  | .obj _ => "[object Object]"

/-- `String(array)`: elements coerced and joined with commas
(`null` elements coerce to the empty string inside an array). -/
def JTree.jsStringList : List JTree → String
  | [] => ""
  | [JTree.null] => ""
  | [t] => JTree.jsString t
  | JTree.null :: t :: ts => "," ++ JTree.jsStringList (t :: ts)
  | t :: t2 :: ts => JTree.jsString t ++ "," ++ JTree.jsStringList (t2 :: ts)
end

/-- A declared parameter: `{name, required}`. -/
structure ParamSpec where
  name : String
  required : Bool
  deriving DecidableEq, Repr

/-- One response rule of an endpoint (wire schema
`{condition?, data|text|assetPath|assetId|base64, contentType?, fileName?, redirectUrl?|url?}`). -/
structure ResponseRule where
  condition : Option String := none
  data : Option JTree := none
  text : Option String := none
  assetPath : Option String := none
  assetId : Option String := none
  base64 : Option String := none
  contentType : Option String := none
  fileName : Option String := none
  redirectUrl : Option String := none
  url : Option String := none

/-- A stored endpoint declaration, as read back by
`configManager.loadEndpoints()`. -/
structure Endpoint where
  path : String
  method : String
  «protected» : Bool
  token : Option String
  parameterSource : String
  parameters : List ParamSpec
  responseType : String
  responses : List ResponseRule
  enabled : Bool

/-- An incoming HTTP request, as the fastify handler sees it.  Header keys are
already lower-cased by the HTTP layer; query and header values are strings;
`body` is the parsed JSON object when present. -/
structure Request where
  method : String
  url : String
  query : List (String × String)
  headers : List (String × String)
  body : Option (List (String × JVal))

/-- The parameter view built from `endpoint.parameterSource`: either a flat
key/value object, or the composite `{query, headers, body}` object built for
source `mixed`. -/
inductive ParamsView where
  | flat (m : List (String × JVal))
  | mixed (query headers : List (String × String)) (body : List (String × JVal))

/-- An asset record as returned by `configManager.getAsset`. -/
structure Asset where
  path : String
  buffer : List Nat

/-- The collaborators and host-language effects the handler consumes:
the endpoint registry snapshot, `new Function('return ' + e)()` (the
truthiness of its result, `none` when it throws), the filesystem keyed by full
path, the asset store, base64 decoding, and the ISO-8601 instant returned by
`new Date().toISOString()`. -/
structure Env where
  endpoints : List Endpoint
  jsEval : String → Option Bool
  fileAt : String → Option (List Nat)
  assetById : String → Option Asset
  b64decode : String → List Nat
  now : String

/-- The observable outcome of one dynamic request. -/
inductive DynResponse where
  | notFound (error : String)
  | unauthorized (error : String)
  | badRequest (error : String) (source : String)
  | serverError (error : String)
  | jsonBody (data : Option JTree)
  | textBody (contentType : String) (body : String)
  | binaryBody (contentType : String) (contentDisposition : Option String) (bytes : List Nat)
  | redirect (location : String)
  | rawBody (data : Option JTree)

/-! ## Condition evaluation (`evaluateCondition`, dynamic.js lines 601-651) -/

/-- Substitution text for a `query.x` / `headers.x` / `params.x` reference:
``typeof val === 'string' ? `"${val}"` : val``, with non-strings coerced by
the template literal (`undefined` when the key is absent). -/
def jvalToSubst : Option JVal → String
  | some (.vStr s) => "\"" ++ s ++ "\""
  | some v => v.jsString
  | none => "undefined"

/-- Substitution text for a `body.x` reference:
``typeof val === 'string' ? `"${val}"` : JSON.stringify(val)``.  On scalar
values `JSON.stringify` agrees with the template-literal coercion
(`JSON.stringify(undefined)` is `undefined`, coerced to `"undefined"`). -/
def jvalToSubstBody : Option JVal → String := jvalToSubst

/-- Substitution text for a `params.x` reference against the parameter view:
on a flat view an ordinary property lookup; on the composite `mixed` view the
only own properties are `query`, `headers` and `body`, whose object values
coerce to `"[object Object]"`. -/
def paramsSubst (view : ParamsView) (key : String) : String :=
  match view with
  | .flat m => jvalToSubst (lookupA m key)
  | .mixed _ _ _ =>
    if key = "query" ∨ key = "headers" ∨ key = "body" then "[object Object]"
    else "undefined"

/-- The four sequential global replacements performed on a condition string:
`query.(\w+)`, then `headers.(\w+)` (lower-cased lookup), then `body.(\w+)`,
then `params.(\w+)`; each acts on the output of the previous one. -/
def substCondition (cond : String) (params : ParamsView) (req : Request) : String :=
  let bodyMap := req.body.getD []
  let s1 := replaceVars "query." "" (fun k => jvalToSubst ((lookupA req.query k).map JVal.vStr)) cond
  let s2 := replaceVars "headers." "" (fun k => jvalToSubst ((lookupA req.headers (lowerStr k)).map JVal.vStr)) s1
  let s3 := replaceVars "body." "" (fun k => jvalToSubstBody (lookupA bodyMap k)) s2
  replaceVars "params." "" (paramsSubst params) s3

/-- The residual of the substituted condition after deleting every
word character: `evalCondition.replace(/\w+/g, '')`. -/
def residualChars (s : String) : List Char :=
  s.toList.filter (fun c => !(isWordChar c))

/-- The safelist character class of `safePattern = /^[\s\d"'=!<>&|().]+$/`. -/
def isSafeChar (c : Char) : Bool :=
  isJsSpace c || ('0' ≤ c ∧ c ≤ '9') || c = '"' || c = '\x27' || c = '=' ||
    c = '!' || c = '<' || c = '>' || c = '&' || c = '|' || c = '(' ||
    c = ')' || c = '.'

/-- `evaluateCondition(condition, params, request)`: substitute the namespace
references, validate the residual against the safelist (an empty or unsafe
residual throws `Invalid condition`, modelled as `.error`), then evaluate the
substituted text; an evaluation throw is caught locally and yields `false`. -/
def evaluateCondition (jsEval : String → Option Bool) (cond : String)
    (params : ParamsView) (req : Request) : Except Unit Bool :=
  let e := substCondition cond params req
  let residual := residualChars e
  if residual ≠ [] ∧ residual.all isSafeChar then
    match jsEval e with
    | some b => Except.ok b
    | none => Except.ok false
  else Except.error ()

/-- Whether a rule carries a condition in the sense of the JavaScript
truthiness tests `if (resp.condition)` and `!r.condition` (a `null`, absent or
empty condition does not count). -/
def hasCond (r : ResponseRule) : Bool :=
  match r.condition with
  | some s => s ≠ ""
  | none => false

/-- Whether the selection loop treats a rule as matching: it carries a truthy
condition, `evaluateCondition` does not throw, and the evaluated result is
truthy.  A throw is caught by the loop's `try`/`catch` and the rule skipped. -/
def ruleMatches (jsEval : String → Option Bool) (r : ResponseRule)
    (params : ParamsView) (req : Request) : Bool :=
  match r.condition with
  | some c =>
    if c ≠ "" then
      match evaluateCondition jsEval c params req with
      | Except.ok b => b
      | Except.error _ => false
    else false
  | none => false

/-- Response-rule selection (dynamic.js lines 510-529): the first rule whose
condition matches; otherwise the first rule without a condition; otherwise the
first rule.  `none` only when the rule list is empty. -/
def selectResponse (jsEval : String → Option Bool) (responses : List ResponseRule)
    (params : ParamsView) (req : Request) : Option ResponseRule :=
  match responses.find? (fun r => ruleMatches jsEval r params req) with
  | some r => some r
  | none =>
    match responses.find? (fun r => !(hasCond r)) with
    | some r => some r
    | none => responses.head?

/-! ## Parameter extraction and validation (dynamic.js lines 460-505) -/

/-- The parameter view built from `endpoint.parameterSource`: `query`,
`header` and `body` spread the respective map; `mixed` builds the composite
`{query, headers, body}` object; any other source (including `none`)
yields the empty object. -/
def buildParams (e : Endpoint) (req : Request) : ParamsView :=
  if e.parameterSource = "query" then
    ParamsView.flat (req.query.map (fun kv => (kv.1, JVal.vStr kv.2)))
  else if e.parameterSource = "header" then
    ParamsView.flat (req.headers.map (fun kv => (kv.1, JVal.vStr kv.2)))
  else if e.parameterSource = "body" then
    ParamsView.flat (req.body.getD [])
  else if e.parameterSource = "mixed" then
    ParamsView.mixed req.query req.headers (req.body.getD [])
  else ParamsView.flat []

/-- Source-specific resolution of a declared parameter's value: for `mixed`,
`params.query?.[name] || params.headers?.[name.toLowerCase()] || params.body?.[name]`;
for `header`, lookup of the lower-cased name; otherwise a direct lookup.
The cross cases (a flat view under source `mixed`, a composite view under
another source) cannot arise from `buildParams`; on them every property
lookup the code performs yields `undefined` or a non-scalar, modelled as
`none`. -/
def resolveParamValue (src : String) (view : ParamsView) (name : String) : Option JVal :=
  if src = "mixed" then
    match view with
    | .mixed q h b =>
      jsOr ((lookupA q name).map JVal.vStr)
        (jsOr ((lookupA h (lowerStr name)).map JVal.vStr) (lookupA b name))
    | .flat _ => none
  else if src = "header" then
    match view with
    | .flat m => lookupA m (lowerStr name)
    | .mixed _ _ _ => none
  else
    match view with
    | .flat m => lookupA m name
    | .mixed _ _ _ => none

/-- Required-parameter validation: the name of the first declared parameter
with `required` whose resolved value is absent, `null` or the empty string;
`none` when validation passes. -/
def validateParams (src : String) (view : ParamsView) (specs : List ParamSpec) : Option String :=
  (specs.find? (fun p => p.required && isMissing (resolveParamValue src view p.name))).map
    (fun p => p.name)

/-! ## Template rendering (`processTemplateString` / `processTemplateVariables`,
dynamic.js lines 654-692) -/

/-- Replacement value of `{{query.NAME}}` and of
`{{headers.NAME}}`: `request.query?.[key] || ''`. -/
def strTemplate (m : List (String × String)) (key : String) : String :=
  match lookupA m key with
  | some s => s
  | none => ""

/-- Replacement value of `{{params.NAME}}`: `params?.[key] || ''`,
with the falsy scalars (`""`, `0`, `false`, `null`) and an absent key
rendering as the empty string; on the composite `mixed` view the own
properties are the three sub-objects, which coerce to `"[object Object]"`. -/
def paramsTemplate (view : ParamsView) (key : String) : String :=
  match view with
  | .flat m =>
    match lookupA m key with
    | some v => if v.truthy then v.jsString else ""
    | none => ""
  | .mixed _ _ _ =>
    if key = "query" ∨ key = "headers" ∨ key = "body" then "[object Object]"
    else ""

/-- Replacement value of `{{body.NAME}}`:
`typeof val === 'object' ? JSON.stringify(val) : (val || '')` — note that
`null` takes the `object` branch and renders as `"null"`. -/
def bodyFieldTemplate (m : List (String × JVal)) (key : String) : String :=
  match lookupA m key with
  | some JVal.vNull => "null"
  | some v => if v.truthy then v.jsString else ""
  | none => ""

/-- `JSON.stringify` of a scalar (string escaping of special characters is not
exercised by any verified property). -/
def jsonOfJVal : JVal → String
  | .vStr s => "\"" ++ s ++ "\""
  | .vNum n => toString n
  | .vBool b => if b then "true" else "false"
  | .vNull => "null"

/-- `JSON.stringify(request.body || {{}})`. -/
def jsonOfBody : Option (List (String × JVal)) → String
  | none => "\x7b\x7d"
  | some m =>
    "\x7b" ++ String.intercalate ","
      (m.map (fun kv => "\"" ++ kv.1 ++ "\":" ++ jsonOfJVal kv.2)) ++ "\x7d"

/-- The date part of the current instant: `toISOString().split('T')[0]`. -/
def isoDate (now : String) : String :=
  String.mk (now.toList.takeWhile (fun c => c ≠ 'T'))

/-- The time part of the current instant: `toISOString().split('T')[1]`
(`"undefined"` would be spliced if the instant carried no `'T'`). -/
def isoTime (now : String) : String :=
  match (now.toList.dropWhile (fun c => c ≠ 'T')) with
  | [] => "undefined"
  | _ :: rest => String.mk rest

/-- `processTemplateString(str, params, request)`: a chain of ten global
replacements, each acting on the previous output — six fixed placeholders,
then the parametric `query.`, `headers.`, `params.` and `body.` placeholders. -/
def processTemplateString (env : Env) (params : ParamsView) (req : Request)
    (str : String) : String :=
  let bodyMap := req.body.getD []
  let s1 := replaceFix "\x7b\x7btimestamp\x7d\x7d" env.now str
  let s2 := replaceFix "\x7b\x7bdate\x7d\x7d" (isoDate env.now) s1
  let s3 := replaceFix "\x7b\x7btime\x7d\x7d" (isoTime env.now) s2
  let s4 := replaceFix "\x7b\x7bmethod\x7d\x7d" req.method s3
  let s5 := replaceFix "\x7b\x7bpath\x7d\x7d" req.url s4
  let s6 := replaceFix "\x7b\x7bbody\x7d\x7d" (jsonOfBody req.body) s5
  let s7 := replaceVars "\x7b\x7bquery." "\x7d\x7d" (strTemplate req.query) s6
  let s8 := replaceVars "\x7b\x7bheaders." "\x7d\x7d" (fun k => strTemplate req.headers (lowerStr k)) s7
  let s9 := replaceVars "\x7b\x7bparams." "\x7d\x7d" (paramsTemplate params) s8
  replaceVars "\x7b\x7bbody." "\x7d\x7d" (bodyFieldTemplate bodyMap) s9

mutual
/-- `processTemplateVariables(data, params, request)`: render strings, map over
arrays element-wise and over objects value-wise, pass other scalars through. -/
def processTemplateVariables (env : Env) (params : ParamsView) (req : Request) : JTree → JTree
  | .s v => .s (processTemplateString env params req v)
  | .arr items => .arr (ptvList env params req items)
  | .obj fields => .obj (ptvFields env params req fields)
  | x => x

/-- Element-wise rendering of an array payload. -/
def ptvList (env : Env) (params : ParamsView) (req : Request) : List JTree → List JTree
  | [] => []
  | t :: ts => processTemplateVariables env params req t :: ptvList env params req ts

/-- Value-wise rendering of an object payload. -/
def ptvFields (env : Env) (params : ParamsView) (req : Request) :
    List (String × JTree) → List (String × JTree)
  | [] => []
  | (k, v) :: rest => (k, processTemplateVariables env params req v) :: ptvFields env params req rest
end

/-! ## Response dispatch and the wildcard handler (dynamic.js lines 425-597) -/

/-- The characters after the last `/`, for `path.extname`. -/
def basenameChars (cs : List Char) : List Char :=
  (cs.reverse.takeWhile (fun c => c ≠ '/')).reverse

/-- `path.extname`: the suffix of the basename from its last `.`, empty when
the basename has no dot or only a leading dot. -/
def extname (p : String) : String :=
  let b := basenameChars p.toList
  let afterRev := b.reverse.takeWhile (fun c => c ≠ '.')
  if afterRev.length = b.length then ""
  else
    let idx := b.length - afterRev.length - 1
    if idx = 0 then "" else String.mk (b.drop idx)

/-- The extension-to-content-type table of the legacy `assetId` branch,
with its `|| 'application/octet-stream'` default. -/
def contentTypeForExt (ext : String) : String :=
  if ext = ".png" then "image/png"
  else if ext = ".jpg" then "image/jpeg"
  else if ext = ".jpeg" then "image/jpeg"
  else if ext = ".gif" then "image/gif"
  else if ext = ".webp" then "image/webp"
  else if ext = ".svg" then "image/svg+xml"
  else if ext = ".pdf" then "application/pdf"
  else if ext = ".zip" then "application/zip"
  else if ext = ".bin" then "application/octet-stream"
  else "application/octet-stream"

/-- `path.join` of the asset root with a relative asset path (separator
insertion; the claims do not depend on normalization). -/
def joinPath (a b : String) : String := a ++ "/" ++ b

/-- The asset root `configManager.ASSETS_DIR` (its concrete value is
irrelevant to every verified property). -/
def ASSETS_DIR : String := "data/assets"

/-- `authHeader.replace('Bearer ', '')`: the header value with the first
occurrence of `Bearer␣` removed. -/
def stripBearer (authHeader : String) : String :=
  String.mk (removeFirst "Bearer ".toList authHeader.toList)

/-- `request.url.split('?')[0]`: the request path with the query string
stripped. -/
def reqPath (url : String) : String :=
  String.mk (url.toList.takeWhile (fun c => c ≠ '?'))

/-- String prefix test, modelling `String.prototype.startsWith`. -/
def strStarts (s pre : String) : Bool := isPre pre.toList s.toList

/-- The reserved-path guard of the wildcard handler:
`requestPath.startsWith('/admin') || requestPath.startsWith('/api/admin') || requestPath === '/health'`. -/
def reservedPath (p : String) : Bool :=
  strStarts p "/admin" || strStarts p "/api/admin" || p = "/health"

/-- The endpoint-matching predicate:
`e.enabled && e.path === requestPath && (e.method === method || e.method === 'ANY')`. -/
def epMatches (path method : String) (e : Endpoint) : Bool :=
  e.enabled && e.path = path && (e.method = method || e.method = "ANY")

/-- `endpoints.find(...)`: the first matching endpoint in storage order. -/
def findEndpoint (endpoints : List Endpoint) (path method : String) : Option Endpoint :=
  endpoints.find? (epMatches path method)

/-- `responseData.text || responseData.data || ''`, before the `String(...)`
coercion applied by the `text` branch. -/
def textPayload (rd : ResponseRule) : String :=
  match rd.text with
  | some s => if s ≠ "" then s else dataText rd.data
  | none => dataText rd.data
where
  dataText : Option JTree → String
    | some t => if t.truthy then t.jsString else ""
    | none => ""

/-- The `binary`/`image` branch of the response dispatch: `assetPath` first
(404 when the file under the asset root is absent), then `assetId` (404 when
the asset lookup finds nothing), then inline `base64`; 500 when the rule
carries none of the three sources. -/
def binaryDispatch (env : Env) (rd : ResponseRule) : DynResponse :=
  if strTruthy rd.assetPath then
    match env.fileAt (joinPath ASSETS_DIR (rd.assetPath.getD "")) with
    | none => DynResponse.notFound "Asset file not found"
    | some buffer =>
      DynResponse.binaryBody (jsStrOr rd.contentType "application/octet-stream")
        (if strTruthy rd.fileName then
          some ("inline; filename=\"" ++ rd.fileName.getD "" ++ "\"") else none)
        buffer
  else if strTruthy rd.assetId then
    match env.assetById (rd.assetId.getD "") with
    | none => DynResponse.notFound "Asset not found"
    | some asset =>
      DynResponse.binaryBody (contentTypeForExt (lowerStr (extname asset.path))) none asset.buffer
  else if strTruthy rd.base64 then
    DynResponse.binaryBody (jsStrOr rd.contentType "application/octet-stream") none
      (env.b64decode (rd.base64.getD ""))
  else DynResponse.serverError "Binary response not configured properly"

/-- The `switch (endpoint.responseType)` of the handler. -/
def dispatchResponse (env : Env) (e : Endpoint) (rd : ResponseRule)
    (view : ParamsView) (req : Request) : DynResponse :=
  if e.responseType = "json" then
    DynResponse.jsonBody (rd.data.map (processTemplateVariables env view req))
  else if e.responseType = "text" then
    DynResponse.textBody "text/plain" (processTemplateString env view req (textPayload rd))
  else if e.responseType = "binary" ∨ e.responseType = "image" then
    binaryDispatch env rd
  else if e.responseType = "redirect" then
    DynResponse.redirect (jsStrOr rd.redirectUrl (jsStrOr rd.url "/"))
  else DynResponse.rawBody rd.data

/-- The handler stages after the access guard: parameter view construction,
required-parameter validation, response-rule selection, dispatch. -/
def afterAuth (env : Env) (e : Endpoint) (req : Request) : DynResponse :=
  let view := buildParams e req
  match validateParams e.parameterSource view e.parameters with
  | some name =>
    DynResponse.badRequest ("Missing required parameter: " ++ name) e.parameterSource
  | none =>
    match selectResponse env.jsEval e.responses view req with
    | none => DynResponse.serverError "No response configured"
    | some rd => dispatchResponse env e rd view req

/-- The wildcard `fastify.all('/*')` handler of `dynamicRoutes`: reserved-path
guard, endpoint matching, bearer-token access guard, then `afterAuth`. -/
def handleRequest (env : Env) (req : Request) : DynResponse :=
  let requestPath := reqPath req.url
  if reservedPath requestPath then DynResponse.notFound "Not found"
  else
    match findEndpoint env.endpoints requestPath req.method with
    | none => DynResponse.notFound "Endpoint not found"
    | some e =>
      if e.«protected» then
        match lookupA req.headers "authorization" with
        | none => DynResponse.unauthorized "Authorization required"
        | some a =>
          if a = "" then DynResponse.unauthorized "Authorization required"
          else if e.token = some (stripBearer a) then afterAuth env e req
          else DynResponse.unauthorized "Invalid token"
      else afterAuth env e req

/-! ## Helper lemmas -/

/-- `List.find?` returns an element at some position whose predecessors all
fail the predicate. -/
theorem find_first_spec {α : Type} (p : α → Bool) :
    ∀ (l : List α) (a : α), l.find? p = some a →
      ∃ i : Fin l.length, l.get i = a ∧ p a = true ∧
        ∀ j : Fin l.length, j.val < i.val → p (l.get j) = false := by
  intro l
  induction l with
  | nil => intro a h; simp [List.find?] at h
  | cons x xs ih =>
    intro a h
    by_cases hx : p x = true
    · rw [List.find?_cons_of_pos _ hx] at h
      cases h
      exact ⟨⟨0, by simp⟩, rfl, hx, fun j hj => absurd hj (by simp)⟩
    · have hx' : p x = false := by revert hx; cases p x <;> simp
      rw [List.find?_cons_of_neg _ (by simp [hx'])] at h
      obtain ⟨i, hget, hpa, hearlier⟩ := ih a h
      refine ⟨⟨i.val + 1, by simp⟩, hget, hpa, ?_⟩
      rintro ⟨jv, hjlt⟩ hj
      cases jv with
      | zero => exact hx'
      | succ k =>
        exact hearlier ⟨k, by simp at hjlt; omega⟩ (by simpa using hj)

/-- An element that satisfies the predicate, all of whose predecessors fail
it, is what `List.find?` returns. -/
theorem find_of_first {α : Type} (p : α → Bool) :
    ∀ (l : List α) (i : Fin l.length), p (l.get i) = true →
      (∀ j : Fin l.length, j.val < i.val → p (l.get j) = false) →
      l.find? p = some (l.get i) := by
  intro l
  induction l with
  | nil => intro i; exact absurd i.isLt (by simp)
  | cons x xs ih =>
    rintro ⟨iv, hlt⟩ hp hearlier
    cases iv with
    | zero =>
      have hp' : p x = true := hp
      rw [List.find?_cons_of_pos _ hp']
      rfl
    | succ k =>
      have hx : p x = false := hearlier ⟨0, by simp⟩ (by simp)
      rw [List.find?_cons_of_neg _ (by simp [hx])]
      exact ih ⟨k, by simpa using hlt⟩ hp
        (fun j hj => hearlier ⟨j.val + 1, by simp⟩ (by simpa using hj))

/-- A failed prefix test makes `dropPre` fail. -/
theorem dropPre_of_not_isPre :
    ∀ (pat s : List Char), isPre pat s = false → dropPre pat s = none := by
  intro pat
  induction pat with
  | nil => intro s h; simp [isPre] at h
  | cons a as ih =>
    intro s h
    cases s with
    | nil => rfl
    | cons b bs =>
      by_cases hab : a = b
      · simp [isPre, hab] at h
        simp [dropPre, hab, ih bs h]
      · simp [dropPre, hab]

/-- `dropPre` strips an actual prefix. -/
theorem dropPre_append : ∀ (pat r : List Char), dropPre pat (pat ++ r) = some r := by
  intro pat r
  induction pat with
  | nil => rfl
  | cons a as ih => simp [dropPre, ih]

/-- `scanFix` on the empty input. -/
theorem scanFix_nil (pat val : List Char) (f : Nat) : scanFix pat val f [] = [] := by
  cases f <;> rfl

/-- `scanVar` on the empty input. -/
theorem scanVar_nil (pre suf : List Char) (cb : String → String) (f : Nat) :
    scanVar pre suf cb f [] = [] := by
  cases f <;> rfl

/-- `scanFix` leaves a string without occurrences of the pattern unchanged. -/
theorem scanFix_no_occ (pat val : List Char) :
    ∀ (f : Nat) (s : List Char), (∀ t, t <:+ s → isPre pat t = false) →
      scanFix pat val f s = s := by
  intro f
  induction f with
  | zero => intro s _; rfl
  | succ n ih =>
    intro s h
    cases s with
    | nil => rfl
    | cons c cs =>
      have h0 : isPre pat (c :: cs) = false := h (c :: cs) (List.suffix_refl _)
      simp only [scanFix, dropPre_of_not_isPre _ _ h0]
      exact congrArg (c :: ·) (ih cs (fun t ht => h t (ht.trans (List.suffix_cons c cs))))

/-- Word characters are not an opening brace. -/
theorem wordChar_ne_brace {c : Char} (h : isWordChar c = true) : c ≠ '\x7b' := by
  intro hc
  rw [hc] at h
  simp [isWordChar] at h

/-- No suffix of `{{u` matches a pattern `{{p` when `p` is not a prefix of `u`
and `u` contains no opening brace. -/
theorem no_occ_brace (p u : List Char) (hp : isPre p u = false)
    (hu : ∀ c ∈ u, c ≠ '\x7b') :
    ∀ t, t <:+ ('\x7b' :: '\x7b' :: u) → isPre ('\x7b' :: '\x7b' :: p) t = false := by
  intro t ht
  rw [List.suffix_cons_iff] at ht
  rcases ht with h1 | ht
  · subst h1; simpa [isPre] using hp
  · rw [List.suffix_cons_iff] at ht
    rcases ht with h2 | ht
    · subst h2
      cases u with
      | nil => cases p <;> rfl
      | cons d ds =>
        have hd := hu d (by simp)
        simp [isPre]
        intro h'
        exact absurd h'.symm hd
    · cases t with
      | nil => cases p <;> rfl
      | cons d ds =>
        have hd := hu d (ht.subset (by simp))
        simp [isPre]
        intro h'
        exact absurd h'.symm hd

/-- `takeWhile`/`dropWhile` split an all-satisfying block followed by a
failing character. -/
theorem takeWhile_all_append (w : Char → Bool) :
    ∀ (xs : List Char) (y : Char) (ys : List Char), (∀ c ∈ xs, w c = true) → w y = false →
      (xs ++ y :: ys).takeWhile w = xs ∧ (xs ++ y :: ys).dropWhile w = y :: ys := by
  intro xs
  induction xs with
  | nil => intro y ys _ hy; simp [List.takeWhile, List.dropWhile, hy]
  | cons x xs ih =>
    intro y ys h hy
    have hx : w x = true := h x (by simp)
    obtain ⟨h1, h2⟩ := ih y ys (fun c hc => h c (by simp [hc])) hy
    simp [List.takeWhile_cons, List.dropWhile_cons, hx, h1, h2]

/-- Head-character mismatch refutes a prefix test. -/
theorem isPre_ne_head (a b : Char) (as bs : List Char) (h : a ≠ b) :
    isPre (a :: as) (b :: bs) = false := by
  simp [isPre, h]

/-- A fixed-pattern replacement leaves a string without occurrences of the
pattern unchanged. -/
theorem replaceFix_no_occ (pat val s : String)
    (h : ∀ t, t <:+ s.toList → isPre pat.toList t = false) :
    replaceFix pat val s = s := by
  unfold replaceFix
  rw [scanFix_no_occ _ _ _ _ h]
  rfl

/-- `String.toList` distributes over append. -/
theorem toList_append (a b : String) : (a ++ b).toList = a.toList ++ b.toList := rfl

/-- Strings with the same character list are equal. -/
theorem string_data_eq (a b : String) (h : a.toList = b.toList) : a = b := by
  cases a with
  | mk d₁ =>
    cases b with
    | mk d₂ => exact congrArg String.mk (by simpa using h)

/-- Appending the empty string in the middle is the identity. -/
theorem string_mid_empty (a b : String) : a ++ "" ++ b = a ++ b :=
  string_data_eq _ _ (by simp [toList_append])

/-- `scanVar` leaves a string without occurrences of the literal prefix
unchanged. -/
theorem scanVar_no_occ (pre suf : List Char) (cb : String → String) :
    ∀ (f : Nat) (s : List Char), (∀ t, t <:+ s → isPre pre t = false) →
      scanVar pre suf cb f s = s := by
  intro f
  induction f with
  | zero => intro s _; rfl
  | succ n ih =>
    intro s h
    cases s with
    | nil => rfl
    | cons c cs =>
      have h0 : isPre pre (c :: cs) = false := h (c :: cs) (List.suffix_refl _)
      simp only [scanVar, dropPre_of_not_isPre _ _ h0]
      exact congrArg (c :: ·) (ih cs (fun t ht => h t (ht.trans (List.suffix_cons c cs))))

/-- No suffix of a brace-free string matches a pattern starting with an
opening brace. -/
theorem no_occ_noBrace (ps u : List Char) (hu : ∀ c ∈ u, c ≠ '\x7b') :
    ∀ t, t <:+ u → isPre ('\x7b' :: ps) t = false := by
  intro t ht
  cases t with
  | nil => rfl
  | cons d ds =>
    have hd := hu d (ht.subset (by simp))
    exact isPre_ne_head _ _ _ _ (fun h => hd h.symm)

/-- `no_occ_brace` generalized to a brace-free prefix before the `{{u`
block. -/
theorem no_occ_brace_embed (p u : List Char) :
    ∀ (lit : List Char), isPre p u = false → (∀ c ∈ u, c ≠ '\x7b') →
      (∀ c ∈ lit, c ≠ '\x7b') →
      ∀ t, t <:+ (lit ++ '\x7b' :: '\x7b' :: u) → isPre ('\x7b' :: '\x7b' :: p) t = false := by
  intro lit
  induction lit with
  | nil => intro hp hu _ t ht; exact no_occ_brace p u hp hu t ht
  | cons c cs ih =>
    intro hp hu hl t ht
    rw [List.cons_append, List.suffix_cons_iff] at ht
    rcases ht with h1 | ht
    · subst h1
      exact isPre_ne_head _ _ _ _ (fun h => hl c (by simp) h.symm)
    · exact ih hp hu (fun d hd => hl d (by simp [hd])) t ht

/-- The character block of an embedded placeholder — its literal form
characters, then an identifier, then `}}` and a brace-free tail — contains no
opening brace. -/
theorem embed_u_noBrace (fchars : List Char) (hf : ∀ c ∈ fchars, c ≠ '\x7b')
    (n l₂ : List Char) (hw : ∀ c ∈ n, isWordChar c = true) (hl₂ : ∀ c ∈ l₂, c ≠ '\x7b') :
    ∀ c ∈ (fchars ++ (n ++ '\x7d' :: '\x7d' :: l₂)), c ≠ '\x7b' := by
  intro c hc
  rcases List.mem_append.mp hc with h | h
  · exact hf c h
  · rcases List.mem_append.mp h with h2 | h2
    · exact wordChar_ne_brace (hw c h2)
    · simp only [List.mem_cons] at h2
      rcases h2 with rfl | rfl | h2
      · decide
      · decide
      · exact hl₂ c h2

/-- `scanVar` on a brace-free prefix, then one full `pre NAME }}` match, then
a brace-free tail: the prefix and tail are copied and the placeholder is
replaced by the callback value. -/
theorem scanVar_embed (pr : List Char) (cb : String → String) (n lit₂ : List Char)
    (hname : n ≠ []) (hword : ∀ c ∈ n, isWordChar c = true)
    (hl₂ : ∀ c ∈ lit₂, c ≠ '\x7b') :
    ∀ (lit₁ : List Char) (f : Nat), (∀ c ∈ lit₁, c ≠ '\x7b') → lit₁.length < f →
      scanVar ('\x7b' :: '\x7b' :: pr) ('\x7d' :: '\x7d' :: []) cb f
        (lit₁ ++ ('\x7b' :: '\x7b' :: (pr ++ (n ++ '\x7d' :: '\x7d' :: lit₂))))
      = lit₁ ++ ((cb (String.mk n)).toList ++ lit₂) := by
  intro lit₁
  induction lit₁ with
  | nil =>
    intro f _ hf
    cases f with
    | zero => exact absurd hf (Nat.lt_irrefl 0)
    | succ f =>
      rw [List.nil_append, List.nil_append]
      have hd : dropPre ('\x7b' :: '\x7b' :: pr)
          ('\x7b' :: '\x7b' :: (pr ++ (n ++ '\x7d' :: '\x7d' :: lit₂)))
          = some (n ++ '\x7d' :: '\x7d' :: lit₂) := by
        show dropPre pr (pr ++ (n ++ '\x7d' :: '\x7d' :: lit₂)) = _
        exact dropPre_append _ _
      obtain ⟨htake, hdrop⟩ :=
        takeWhile_all_append isWordChar n '\x7d' ('\x7d' :: lit₂) hword (by decide)
      have hd2 : dropPre ('\x7d' :: '\x7d' :: ([] : List Char)) ('\x7d' :: '\x7d' :: lit₂)
          = some lit₂ := rfl
      simp only [scanVar, hd, htake, hdrop, hname, if_neg, hd2]
      rw [scanVar_no_occ _ _ _ _ _ (no_occ_noBrace ('\x7b' :: pr) lit₂ hl₂)]
      simp
  | cons c cs ih =>
    intro f hl hf
    cases f with
    | zero => exact absurd hf (Nat.not_lt_zero _)
    | succ f =>
      rw [List.cons_append]
      have hc : c ≠ '\x7b' := hl c (by simp)
      have hdp : dropPre ('\x7b' :: '\x7b' :: pr)
          (c :: (cs ++ ('\x7b' :: '\x7b' :: (pr ++ (n ++ '\x7d' :: '\x7d' :: lit₂)))))
          = none := by
        unfold dropPre
        rw [if_neg (fun h => hc h.symm)]
      simp only [scanVar, hdp]
      exact congrArg (c :: ·)
        (ih f (fun d hd => hl d (by simp [hd])) (by simpa using hf))

/-- A fixed pattern of shape `{{p` never fires on a string made of a
brace-free prefix and a `{{u` block whose `u` does not begin with `p`. -/
theorem replaceFix_embed_skip (pat : String) (p : List Char)
    (hpat : pat.toList = '\x7b' :: '\x7b' :: p) (lit₁ : String) (u : List Char) (s : String)
    (hs : s.toList = lit₁.toList ++ ('\x7b' :: '\x7b' :: u))
    (hp : isPre p u = false) (hu : ∀ c ∈ u, c ≠ '\x7b')
    (hl : ∀ c ∈ lit₁.toList, c ≠ '\x7b') (v : String) :
    replaceFix pat v s = s := by
  apply replaceFix_no_occ
  intro t ht
  rw [hs] at ht
  rw [hpat]
  exact no_occ_brace_embed p u lit₁.toList hp hu hl t ht

/-- A parametric pattern of shape `{{pr` never fires on a string made of a
brace-free prefix and a `{{u` block whose `u` does not begin with `pr`. -/
theorem replaceVars_embed_skip (pre : String) (pr : List Char)
    (hpre : pre.toList = '\x7b' :: '\x7b' :: pr) (suf : String) (cb : String → String)
    (lit₁ : String) (u : List Char) (s : String)
    (hs : s.toList = lit₁.toList ++ ('\x7b' :: '\x7b' :: u))
    (hp : isPre pr u = false) (hu : ∀ c ∈ u, c ≠ '\x7b')
    (hl : ∀ c ∈ lit₁.toList, c ≠ '\x7b') :
    replaceVars pre suf cb s = s := by
  have hno : ∀ t, t <:+ s.toList → isPre pre.toList t = false := by
    intro t ht
    rw [hs] at ht
    rw [hpre]
    exact no_occ_brace_embed pr u lit₁.toList hp hu hl t ht
  unfold replaceVars
  rw [scanVar_no_occ _ _ _ _ _ hno]
  rfl

/-- A parametric pattern starting with an opening brace never fires on a
brace-free string. -/
theorem replaceVars_noBrace_skip (pre : String) (ps : List Char)
    (hpre : pre.toList = '\x7b' :: ps) (suf : String) (cb : String → String) (s : String)
    (hs : ∀ c ∈ s.toList, c ≠ '\x7b') :
    replaceVars pre suf cb s = s := by
  have hno : ∀ t, t <:+ s.toList → isPre pre.toList t = false := by
    intro t ht
    rw [hpre]
    exact no_occ_noBrace ps s.toList hs t ht
  unfold replaceVars
  rw [scanVar_no_occ _ _ _ _ _ hno]
  rfl

/-- One embedded `pre NAME }}` placeholder between brace-free surroundings is
replaced by the callback value of `NAME`, string level. -/
theorem replaceVars_embed_subst (pre : String) (pr : List Char)
    (hpre : pre.toList = '\x7b' :: '\x7b' :: pr) (cb : String → String)
    (lit₁ name lit₂ : String)
    (hl₁ : ∀ c ∈ lit₁.toList, c ≠ '\x7b') (hl₂ : ∀ c ∈ lit₂.toList, c ≠ '\x7b')
    (hname : name.toList ≠ []) (hword : ∀ c ∈ name.toList, isWordChar c = true) :
    replaceVars pre "\x7d\x7d" cb (lit₁ ++ pre ++ name ++ "\x7d\x7d" ++ lit₂)
      = lit₁ ++ cb name ++ lit₂ := by
  have hs : (lit₁ ++ pre ++ name ++ "\x7d\x7d" ++ lit₂).toList
      = lit₁.toList ++ ('\x7b' :: '\x7b' ::
          (pr ++ (name.toList ++ '\x7d' :: '\x7d' :: lit₂.toList))) := by
    simp only [toList_append, List.append_assoc, hpre,
      show ("\x7d\x7d" : String).toList = ['\x7d', '\x7d'] from rfl,
      List.cons_append, List.nil_append]
  unfold replaceVars
  rw [hs, hpre, show ("\x7d\x7d" : String).toList = '\x7d' :: '\x7d' :: ([] : List Char) from rfl]
  rw [scanVar_embed pr cb name.toList lit₂.toList hname hword hl₂ lit₁.toList _ hl₁
    (by simp [List.length_append])]
  rw [show String.mk name.toList = name from rfl]
  exact string_data_eq _ _ (by simp only [toList_append, List.append_assoc]; rfl)

/-- C5 (amended): in any rendered string payload built from brace-free
surroundings, a recognized placeholder whose lookup produces no value — a
`{{query.NAME}}` or `{{headers.NAME}}` with the (lower-cased) name absent
from the respective map, a `{{params.NAME}}` whose parameter-view lookup
renders empty, or a `{{body.NAME}}` with the name absent from the body —
resolves to the empty string rather than being left literal: the rendered
output is exactly the surroundings with the placeholder deleted.
(Unrecognized `{{...}}` sequences are left literal, which is what the
counterexample below exhibits.) -/
theorem C5_unmatched_placeholder_empty (env : Env) (view : ParamsView) (req : Request)
    (lit₁ name lit₂ : String)
    (hl₁ : ∀ c ∈ lit₁.toList, c ≠ '\x7b') (hl₂ : ∀ c ∈ lit₂.toList, c ≠ '\x7b')
    (hne : name.toList ≠ []) (hword : ∀ c ∈ name.toList, isWordChar c = true) :
    (lookupA req.query name = none →
      processTemplateString env view req (lit₁ ++ "\x7b\x7bquery." ++ name ++ "\x7d\x7d" ++ lit₂)
        = lit₁ ++ lit₂)
    ∧ (lookupA req.headers (lowerStr name) = none →
      processTemplateString env view req (lit₁ ++ "\x7b\x7bheaders." ++ name ++ "\x7d\x7d" ++ lit₂)
        = lit₁ ++ lit₂)
    ∧ (paramsTemplate view name = "" →
      processTemplateString env view req (lit₁ ++ "\x7b\x7bparams." ++ name ++ "\x7d\x7d" ++ lit₂)
        = lit₁ ++ lit₂)
    ∧ (lookupA (req.body.getD []) name = none →
      processTemplateString env view req (lit₁ ++ "\x7b\x7bbody." ++ name ++ "\x7d\x7d" ++ lit₂)
        = lit₁ ++ lit₂) := by
  have hbr : ∀ c ∈ (lit₁ ++ lit₂).toList, c ≠ '\x7b' := by
    intro c hc
    rcases List.mem_append.mp (by simpa only [toList_append] using hc) with h | h
    · exact hl₁ c h
    · exact hl₂ c h
  refine ⟨?_, ?_, ?_, ?_⟩
  · intro habs
    have hcb : strTemplate req.query name = "" := by simp [strTemplate, habs]
    have hS : (lit₁ ++ "\x7b\x7bquery." ++ name ++ "\x7d\x7d" ++ lit₂).toList
        = lit₁.toList ++ ('\x7b' :: '\x7b' ::
            (['q', 'u', 'e', 'r', 'y', '.'] ++
              (name.toList ++ '\x7d' :: '\x7d' :: lit₂.toList))) := by
      simp only [toList_append, List.append_assoc]
      rfl
    have hu := embed_u_noBrace ['q', 'u', 'e', 'r', 'y', '.'] (by decide)
      name.toList lit₂.toList hword hl₂
    simp only [processTemplateString]
    rw [replaceFix_embed_skip "\x7b\x7btimestamp\x7d\x7d" ("timestamp\x7d\x7d" : String).toList
      rfl lit₁ _ _ hS rfl hu hl₁ _]
    rw [replaceFix_embed_skip "\x7b\x7bdate\x7d\x7d" ("date\x7d\x7d" : String).toList
      rfl lit₁ _ _ hS rfl hu hl₁ _]
    rw [replaceFix_embed_skip "\x7b\x7btime\x7d\x7d" ("time\x7d\x7d" : String).toList
      rfl lit₁ _ _ hS rfl hu hl₁ _]
    rw [replaceFix_embed_skip "\x7b\x7bmethod\x7d\x7d" ("method\x7d\x7d" : String).toList
      rfl lit₁ _ _ hS rfl hu hl₁ _]
    rw [replaceFix_embed_skip "\x7b\x7bpath\x7d\x7d" ("path\x7d\x7d" : String).toList
      rfl lit₁ _ _ hS rfl hu hl₁ _]
    rw [replaceFix_embed_skip "\x7b\x7bbody\x7d\x7d" ("body\x7d\x7d" : String).toList
      rfl lit₁ _ _ hS rfl hu hl₁ _]
    rw [replaceVars_embed_subst "\x7b\x7bquery." ("query." : String).toList rfl
      (strTemplate req.query) lit₁ name lit₂ hl₁ hl₂ hne hword]
    rw [hcb, string_mid_empty]
    rw [replaceVars_noBrace_skip "\x7b\x7bheaders." ("\x7bheaders." : String).toList rfl _ _ _ hbr]
    rw [replaceVars_noBrace_skip "\x7b\x7bparams." ("\x7bparams." : String).toList rfl _ _ _ hbr]
    rw [replaceVars_noBrace_skip "\x7b\x7bbody." ("\x7bbody." : String).toList rfl _ _ _ hbr]
  · intro habs
    have hcb : strTemplate req.headers (lowerStr name) = "" := by simp [strTemplate, habs]
    have hS : (lit₁ ++ "\x7b\x7bheaders." ++ name ++ "\x7d\x7d" ++ lit₂).toList
        = lit₁.toList ++ ('\x7b' :: '\x7b' ::
            (['h', 'e', 'a', 'd', 'e', 'r', 's', '.'] ++
              (name.toList ++ '\x7d' :: '\x7d' :: lit₂.toList))) := by
      simp only [toList_append, List.append_assoc]
      rfl
    have hu := embed_u_noBrace ['h', 'e', 'a', 'd', 'e', 'r', 's', '.'] (by decide)
      name.toList lit₂.toList hword hl₂
    simp only [processTemplateString]
    rw [replaceFix_embed_skip "\x7b\x7btimestamp\x7d\x7d" ("timestamp\x7d\x7d" : String).toList
      rfl lit₁ _ _ hS rfl hu hl₁ _]
    rw [replaceFix_embed_skip "\x7b\x7bdate\x7d\x7d" ("date\x7d\x7d" : String).toList
      rfl lit₁ _ _ hS rfl hu hl₁ _]
    rw [replaceFix_embed_skip "\x7b\x7btime\x7d\x7d" ("time\x7d\x7d" : String).toList
      rfl lit₁ _ _ hS rfl hu hl₁ _]
    rw [replaceFix_embed_skip "\x7b\x7bmethod\x7d\x7d" ("method\x7d\x7d" : String).toList
      rfl lit₁ _ _ hS rfl hu hl₁ _]
    rw [replaceFix_embed_skip "\x7b\x7bpath\x7d\x7d" ("path\x7d\x7d" : String).toList
      rfl lit₁ _ _ hS rfl hu hl₁ _]
    rw [replaceFix_embed_skip "\x7b\x7bbody\x7d\x7d" ("body\x7d\x7d" : String).toList
      rfl lit₁ _ _ hS rfl hu hl₁ _]
    rw [replaceVars_embed_skip "\x7b\x7bquery." ("query." : String).toList rfl _ _
      lit₁ _ _ hS rfl hu hl₁]
    rw [replaceVars_embed_subst "\x7b\x7bheaders." ("headers." : String).toList rfl
      (fun k => strTemplate req.headers (lowerStr k)) lit₁ name lit₂ hl₁ hl₂ hne hword]
    rw [hcb, string_mid_empty]
    rw [replaceVars_noBrace_skip "\x7b\x7bparams." ("\x7bparams." : String).toList rfl _ _ _ hbr]
    rw [replaceVars_noBrace_skip "\x7b\x7bbody." ("\x7bbody." : String).toList rfl _ _ _ hbr]
  · intro hcb
    have hS : (lit₁ ++ "\x7b\x7bparams." ++ name ++ "\x7d\x7d" ++ lit₂).toList
        = lit₁.toList ++ ('\x7b' :: '\x7b' ::
            (['p', 'a', 'r', 'a', 'm', 's', '.'] ++
              (name.toList ++ '\x7d' :: '\x7d' :: lit₂.toList))) := by
      simp only [toList_append, List.append_assoc]
      rfl
    have hu := embed_u_noBrace ['p', 'a', 'r', 'a', 'm', 's', '.'] (by decide)
      name.toList lit₂.toList hword hl₂
    simp only [processTemplateString]
    rw [replaceFix_embed_skip "\x7b\x7btimestamp\x7d\x7d" ("timestamp\x7d\x7d" : String).toList
      rfl lit₁ _ _ hS rfl hu hl₁ _]
    rw [replaceFix_embed_skip "\x7b\x7bdate\x7d\x7d" ("date\x7d\x7d" : String).toList
      rfl lit₁ _ _ hS rfl hu hl₁ _]
    rw [replaceFix_embed_skip "\x7b\x7btime\x7d\x7d" ("time\x7d\x7d" : String).toList
      rfl lit₁ _ _ hS rfl hu hl₁ _]
    rw [replaceFix_embed_skip "\x7b\x7bmethod\x7d\x7d" ("method\x7d\x7d" : String).toList
      rfl lit₁ _ _ hS rfl hu hl₁ _]
    rw [replaceFix_embed_skip "\x7b\x7bpath\x7d\x7d" ("path\x7d\x7d" : String).toList
      rfl lit₁ _ _ hS rfl hu hl₁ _]
    rw [replaceFix_embed_skip "\x7b\x7bbody\x7d\x7d" ("body\x7d\x7d" : String).toList
      rfl lit₁ _ _ hS rfl hu hl₁ _]
    rw [replaceVars_embed_skip "\x7b\x7bquery." ("query." : String).toList rfl _ _
      lit₁ _ _ hS rfl hu hl₁]
    rw [replaceVars_embed_skip "\x7b\x7bheaders." ("headers." : String).toList rfl _ _
      lit₁ _ _ hS rfl hu hl₁]
    rw [replaceVars_embed_subst "\x7b\x7bparams." ("params." : String).toList rfl
      (paramsTemplate view) lit₁ name lit₂ hl₁ hl₂ hne hword]
    rw [hcb, string_mid_empty]
    rw [replaceVars_noBrace_skip "\x7b\x7bbody." ("\x7bbody." : String).toList rfl _ _ _ hbr]
  · intro habs
    have hcb : bodyFieldTemplate (req.body.getD []) name = "" := by
      simp [bodyFieldTemplate, habs]
    have hS : (lit₁ ++ "\x7b\x7bbody." ++ name ++ "\x7d\x7d" ++ lit₂).toList
        = lit₁.toList ++ ('\x7b' :: '\x7b' ::
            (['b', 'o', 'd', 'y', '.'] ++
              (name.toList ++ '\x7d' :: '\x7d' :: lit₂.toList))) := by
      simp only [toList_append, List.append_assoc]
      rfl
    have hu := embed_u_noBrace ['b', 'o', 'd', 'y', '.'] (by decide)
      name.toList lit₂.toList hword hl₂
    simp only [processTemplateString]
    rw [replaceFix_embed_skip "\x7b\x7btimestamp\x7d\x7d" ("timestamp\x7d\x7d" : String).toList
      rfl lit₁ _ _ hS rfl hu hl₁ _]
    rw [replaceFix_embed_skip "\x7b\x7bdate\x7d\x7d" ("date\x7d\x7d" : String).toList
      rfl lit₁ _ _ hS rfl hu hl₁ _]
    rw [replaceFix_embed_skip "\x7b\x7btime\x7d\x7d" ("time\x7d\x7d" : String).toList
      rfl lit₁ _ _ hS rfl hu hl₁ _]
    rw [replaceFix_embed_skip "\x7b\x7bmethod\x7d\x7d" ("method\x7d\x7d" : String).toList
      rfl lit₁ _ _ hS rfl hu hl₁ _]
    rw [replaceFix_embed_skip "\x7b\x7bpath\x7d\x7d" ("path\x7d\x7d" : String).toList
      rfl lit₁ _ _ hS rfl hu hl₁ _]
    rw [replaceFix_embed_skip "\x7b\x7bbody\x7d\x7d" ("body\x7d\x7d" : String).toList
      rfl lit₁ _ _ hS rfl hu hl₁ _]
    rw [replaceVars_embed_skip "\x7b\x7bquery." ("query." : String).toList rfl _ _
      lit₁ _ _ hS rfl hu hl₁]
    rw [replaceVars_embed_skip "\x7b\x7bheaders." ("headers." : String).toList rfl _ _
      lit₁ _ _ hS rfl hu hl₁]
    rw [replaceVars_embed_skip "\x7b\x7bparams." ("params." : String).toList rfl _ _
      lit₁ _ _ hS rfl hu hl₁]
    rw [replaceVars_embed_subst "\x7b\x7bbody." ("body." : String).toList rfl
      (bodyFieldTemplate (req.body.getD [])) lit₁ name lit₂ hl₁ hl₂ hne hword]
    rw [hcb, string_mid_empty]

/-! ## Concrete fixtures for witnesses and counterexamples -/

/-- An evaluator standing in for `new Function` in witnesses: it throws on
every expression. -/
def jsEvalNone : String → Option Bool := fun _ => none

/-- A response rule with plain text `A` guarded by the condition `1 < 2.5`. -/
def ruleDotA : ResponseRule := { condition := some "1 < 2.5", text := some "A" }

/-- An unconditioned response rule with plain text `B`. -/
def ruleDotB : ResponseRule := { condition := none, text := some "B" }

/-- A conditioned rule whose condition `flagged` is identifier-only. -/
def ruleWordOnly : ResponseRule := { condition := some "flagged", text := some "W1" }

/-- An unconditioned fallback rule. -/
def ruleFallback : ResponseRule := { condition := none, text := some "W2" }

/-- A trivial request with no query, headers or body. -/
def reqPlain : Request := ⟨"GET", "/w", [], [], none⟩

/-- The empty flat parameter view. -/
def viewPlain : ParamsView := ParamsView.flat []

/-- An environment with an empty registry and an always-throwing evaluator. -/
def envPlain : Env :=
  ⟨[], jsEvalNone, fun _ => none, fun _ => none, fun _ => [], "2024-01-02T03:04:05.000Z"⟩

/-! ## C1 -/

/-- C1 (confirmed): for a non-empty ordered rule list, selection returns the
first rule in declared order whose non-empty condition evaluates truthy; if no
conditioned rule matches, the first rule lacking a condition; and if every
rule carries a condition and none matches, the first rule of the list.
(Short-circuiting of later rules is captured by the first-match
characterization: the selected index is determined by the prefix before it.) -/
theorem C1_rule_selection_order (jsEval : String → Option Bool) (rs : List ResponseRule)
    (view : ParamsView) (req : Request) (hne : rs ≠ []) :
    ∃ i : Fin rs.length, selectResponse jsEval rs view req = some (rs.get i) ∧
      ((ruleMatches jsEval (rs.get i) view req = true ∧
          ∀ j : Fin rs.length, j.val < i.val → ruleMatches jsEval (rs.get j) view req = false)
        ∨ ((∀ j : Fin rs.length, ruleMatches jsEval (rs.get j) view req = false) ∧
            hasCond (rs.get i) = false ∧
            (∀ j : Fin rs.length, j.val < i.val → hasCond (rs.get j) = true))
        ∨ ((∀ j : Fin rs.length, ruleMatches jsEval (rs.get j) view req = false) ∧
            (∀ j : Fin rs.length, hasCond (rs.get j) = true) ∧ i.val = 0)) := by
  unfold selectResponse
  cases h1 : rs.find? (fun r => ruleMatches jsEval r view req) with
  | some r =>
    obtain ⟨i, hget, hp, hearlier⟩ := find_first_spec _ rs r h1
    exact ⟨i, by rw [hget], Or.inl ⟨by rw [hget]; exact hp, hearlier⟩⟩
  | none =>
    have hall : ∀ j : Fin rs.length, ruleMatches jsEval (rs.get j) view req = false := by
      intro j
      have := List.find?_eq_none.mp h1 (rs.get j) (rs.get_mem _ _)
      simpa using this
    cases h2 : rs.find? (fun r => !(hasCond r)) with
    | some r =>
      obtain ⟨i, hget, hp, hearlier⟩ := find_first_spec _ rs r h2
      refine ⟨i, by rw [hget], Or.inr (Or.inl ⟨hall, ?_, ?_⟩)⟩
      · rw [← hget] at hp; simpa using hp
      · intro j hj; simpa using hearlier j hj
    | none =>
      have hallc : ∀ j : Fin rs.length, hasCond (rs.get j) = true := by
        intro j
        have := List.find?_eq_none.mp h2 (rs.get j) (rs.get_mem _ _)
        simpa using this
      cases rs with
      | nil => exact absurd rfl hne
      | cons a t => exact ⟨⟨0, by simp⟩, rfl, Or.inr (Or.inr ⟨hall, hallc, rfl⟩)⟩

/-- C1 witness: the selection property evaluated on a concrete two-rule list
whose conditioned first rule does not match. -/
theorem C1_rule_selection_order_witness :
    ([ruleWordOnly, ruleFallback] : List ResponseRule) ≠ [] ∧
    ∃ i : Fin ([ruleWordOnly, ruleFallback] : List ResponseRule).length,
      selectResponse jsEvalNone [ruleWordOnly, ruleFallback] viewPlain reqPlain =
        some ([ruleWordOnly, ruleFallback].get i) ∧
      ((ruleMatches jsEvalNone ([ruleWordOnly, ruleFallback].get i) viewPlain reqPlain = true ∧
          ∀ j : Fin ([ruleWordOnly, ruleFallback] : List ResponseRule).length, j.val < i.val →
            ruleMatches jsEvalNone ([ruleWordOnly, ruleFallback].get j) viewPlain reqPlain = false)
        ∨ ((∀ j : Fin ([ruleWordOnly, ruleFallback] : List ResponseRule).length,
              ruleMatches jsEvalNone ([ruleWordOnly, ruleFallback].get j) viewPlain reqPlain = false) ∧
            hasCond ([ruleWordOnly, ruleFallback].get i) = false ∧
            (∀ j : Fin ([ruleWordOnly, ruleFallback] : List ResponseRule).length, j.val < i.val →
              hasCond ([ruleWordOnly, ruleFallback].get j) = true))
        ∨ ((∀ j : Fin ([ruleWordOnly, ruleFallback] : List ResponseRule).length,
              ruleMatches jsEvalNone ([ruleWordOnly, ruleFallback].get j) viewPlain reqPlain = false) ∧
            (∀ j : Fin ([ruleWordOnly, ruleFallback] : List ResponseRule).length,
              hasCond ([ruleWordOnly, ruleFallback].get j) = true) ∧ i.val = 0)) :=
  ⟨by simp, C1_rule_selection_order jsEvalNone [ruleWordOnly, ruleFallback] viewPlain reqPlain
    (by simp)⟩

/-! ## C6 -/

/-- The post-guard stages can answer with parameter, configuration, or asset
errors, but never with the matcher's 404. -/
theorem afterAuth_ne_endpoint_notFound (env : Env) (e : Endpoint) (req : Request) :
    afterAuth env e req ≠ DynResponse.notFound "Endpoint not found" := by
  show (match validateParams e.parameterSource (buildParams e req) e.parameters with
    | some name =>
      DynResponse.badRequest ("Missing required parameter: " ++ name) e.parameterSource
    | none =>
      match selectResponse env.jsEval e.responses (buildParams e req) req with
      | none => DynResponse.serverError "No response configured"
      | some rd => dispatchResponse env e rd (buildParams e req) req) ≠
    DynResponse.notFound "Endpoint not found"
  cases validateParams e.parameterSource (buildParams e req) e.parameters with
  | some name => simp
  | none =>
    cases selectResponse env.jsEval e.responses (buildParams e req) req with
    | none => simp
    | some rd =>
      simp only []
      unfold dispatchResponse binaryDispatch
      repeat' split
      all_goals simp

/-- C6 (confirmed): for a non-reserved request path, the matcher returns the
first endpoint in storage order that is enabled, has exactly the request path
(query string stripped), and has the request method or `ANY`; if no endpoint
matches (including when the only candidates are disabled), the request is
answered 404.  Conjuncts: no match answers 404; anything the matcher returns
is the first match; the first match is what the matcher returns; and when a
match exists the request is never answered with the matcher's 404. -/
theorem C6_first_match_or_404 (env : Env) (req : Request)
    (hres : reservedPath (reqPath req.url) = false) :
    ((∀ e ∈ env.endpoints, epMatches (reqPath req.url) req.method e = false) →
        handleRequest env req = DynResponse.notFound "Endpoint not found")
    ∧ (∀ e, findEndpoint env.endpoints (reqPath req.url) req.method = some e →
        epMatches (reqPath req.url) req.method e = true ∧
        ∃ i : Fin env.endpoints.length, env.endpoints.get i = e ∧
          ∀ j : Fin env.endpoints.length, j.val < i.val →
            epMatches (reqPath req.url) req.method (env.endpoints.get j) = false)
    ∧ (∀ i : Fin env.endpoints.length,
        epMatches (reqPath req.url) req.method (env.endpoints.get i) = true →
        (∀ j : Fin env.endpoints.length, j.val < i.val →
          epMatches (reqPath req.url) req.method (env.endpoints.get j) = false) →
        findEndpoint env.endpoints (reqPath req.url) req.method = some (env.endpoints.get i))
    ∧ (∀ i : Fin env.endpoints.length,
        epMatches (reqPath req.url) req.method (env.endpoints.get i) = true →
        handleRequest env req ≠ DynResponse.notFound "Endpoint not found") := by
  refine ⟨?_, ?_, ?_, ?_⟩
  · intro hall
    have hnone : findEndpoint env.endpoints (reqPath req.url) req.method = none := by
      unfold findEndpoint
      exact List.find?_eq_none.mpr (fun e he => by simp [hall e he])
    simp [handleRequest, hres, hnone]
  · intro e he
    obtain ⟨i, hget, hp, hearlier⟩ := find_first_spec _ env.endpoints e he
    exact ⟨hp, i, hget, hearlier⟩
  · intro i hp hearlier
    exact find_of_first _ env.endpoints i hp hearlier
  · intro i hp
    cases hfe : findEndpoint env.endpoints (reqPath req.url) req.method with
    | none =>
      exact absurd hp (by simpa using
        List.find?_eq_none.mp hfe (env.endpoints.get i) (env.endpoints.get_mem _ _))
    | some e =>
      simp only [handleRequest, hres, hfe, Bool.false_eq_true, if_false]
      by_cases hpr : e.«protected» = true
      · simp only [hpr, if_true]
        cases lookupA req.headers "authorization" with
        | none => simp
        | some a =>
          by_cases ha : a = ""
          · simp [ha]
          · by_cases ht : e.token = some (stripBearer a)
            · simp [ha, ht]
              exact afterAuth_ne_endpoint_notFound env e req
            · simp [ha, ht]
      · simp only [Bool.not_eq_true] at hpr
        simp only [hpr, Bool.false_eq_true, if_false]
        exact afterAuth_ne_endpoint_notFound env e req

/-- The endpoint used by the C6 witness. -/
def epW6 : Endpoint :=
  { path := "/w6", method := "GET", «protected» := false, token := none,
    parameterSource := "none", parameters := [], responseType := "text",
    responses := [ruleFallback], enabled := true }

/-- The environment of the C6 witness: a one-endpoint registry. -/
def envW6 : Env :=
  ⟨[epW6], jsEvalNone, fun _ => none, fun _ => none, fun _ => [], "2024-01-02T03:04:05.000Z"⟩

/-- A request that misses the single registered endpoint (wrong method). -/
def reqW6 : Request := ⟨"POST", "/w6", [], [], none⟩

/-- A request that hits the single registered endpoint. -/
def reqW6pos : Request := ⟨"GET", "/w6", [], [], none⟩

/-- C6 witness: the matcher property evaluated on a concrete registry — the
no-match branch yields the concrete 404, and for a matching request the
matcher returns the declared endpoint and the handler does not answer the
matcher's 404. -/
theorem C6_first_match_or_404_witness :
    reservedPath (reqPath reqW6.url) = false ∧
    handleRequest envW6 reqW6 = DynResponse.notFound "Endpoint not found" ∧
    epMatches (reqPath reqW6pos.url) reqW6pos.method epW6 = true ∧
    findEndpoint envW6.endpoints (reqPath reqW6pos.url) reqW6pos.method = some epW6 ∧
    handleRequest envW6 reqW6pos ≠ DynResponse.notFound "Endpoint not found" := by
  have Tpos := C6_first_match_or_404 envW6 reqW6pos rfl
  refine ⟨rfl, ?_, by decide, ?_, ?_⟩
  · apply (C6_first_match_or_404 envW6 reqW6 rfl).1
    intro e he
    have he' : e = epW6 := by simpa [envW6] using he
    subst he'
    decide
  · exact Tpos.2.2.1 ⟨0, by decide⟩ (by decide)
      (fun j hj => absurd hj (Nat.not_lt_zero _))
  · exact Tpos.2.2.2 ⟨0, by decide⟩ (by decide)

/-! ## C8 -/

/-- The reserved-prefix rule exactly as the specification words it: the path
begins with `/admin`, `/api/admin` or `/health`.  Stated from the spec for
comparison with the code's `reservedPath`, which tests `/health` by equality
rather than by prefix. -/
def reservedBySpec (p : String) : Bool :=
  strStarts p "/admin" || strStarts p "/api/admin" || strStarts p "/health"

/-- The endpoint used by the C8 counterexample: a declared, enabled endpoint
whose path begins with `/health` without being `/health`. -/
def epC8 : Endpoint :=
  { path := "/healthz", method := "GET", «protected» := false, token := none,
    parameterSource := "none", parameters := [], responseType := "text",
    responses := [{ condition := none, text := some "ok" }], enabled := true }

/-- The registry holding `epC8` (reachable via the admin update/import
surface, which does not re-validate reserved prefixes). -/
def envC8 : Env :=
  ⟨[epC8], jsEvalNone, fun _ => none, fun _ => none, fun _ => [], "2024-01-02T03:04:05.000Z"⟩

/-- A request to `/healthz`. -/
def reqC8 : Request := ⟨"GET", "/healthz", [], [], none⟩

/-- C8 counterexample: `/healthz` begins with the reserved prefix `/health`
as the claim words it, yet the engine consults the registry and serves the
declared endpoint instead of answering 404. -/
theorem C8_counterexample :
    reservedBySpec (reqPath reqC8.url) = true ∧
    handleRequest envC8 reqC8 = DynResponse.textBody "text/plain" "ok" ∧
    handleRequest envC8 reqC8 ≠ DynResponse.notFound "Not found" ∧
    handleRequest envC8 reqC8 ≠ DynResponse.notFound "Endpoint not found" := by
  refine ⟨rfl, rfl, ?_, ?_⟩ <;>
    simp [show handleRequest envC8 reqC8 = DynResponse.textBody "text/plain" "ok" from rfl]

/-- C8 (corrected): a request whose path begins with `/admin` or `/api/admin`,
or equals `/health` exactly, is excluded before the registry is consulted and
is answered 404 by the engine, for every registry content; paths that merely
begin with `/health` without being equal to it are not excluded. -/
theorem C8_reserved_guard (env : Env) (req : Request)
    (h : reservedPath (reqPath req.url) = true) :
    handleRequest env req = DynResponse.notFound "Not found" := by
  simp [handleRequest, h]

/-- The endpoint of the C8 witness registry, declared on a reserved path. -/
def epW8 : Endpoint :=
  { path := "/admin/x", method := "GET", «protected» := false, token := none,
    parameterSource := "none", parameters := [], responseType := "text",
    responses := [ruleFallback], enabled := true }

/-- The C8 witness environment. -/
def envW8 : Env :=
  ⟨[epW8], jsEvalNone, fun _ => none, fun _ => none, fun _ => [], "2024-01-02T03:04:05.000Z"⟩

/-- A request to `/admin/x`. -/
def reqW8 : Request := ⟨"GET", "/admin/x", [], [], none⟩

/-- C8 witness: the reserved guard evaluated at `/admin/x` against a registry
that would otherwise match it. -/
theorem C8_reserved_guard_witness :
    reservedPath (reqPath reqW8.url) = true ∧
    handleRequest envW8 reqW8 = DynResponse.notFound "Not found" :=
  ⟨rfl, C8_reserved_guard envW8 reqW8 rfl⟩

/-! ## C2 and C9 -/

/-- The safelist exactly as the specification lists it — digits, quotes,
whitespace, `= ! < > & | ( )` — stated from the spec's words for comparison
with the code's `isSafeChar`, which additionally admits the period. -/
def specSafelistChar (c : Char) : Bool :=
  isJsSpace c || ('0' ≤ c ∧ c ≤ '9') || c = '"' || c = '\x27' || c = '=' ||
    c = '!' || c = '<' || c = '>' || c = '&' || c = '|' || c = '(' || c = ')'

/-- The evaluator used by the C2 counterexample, behaving as
`new Function('return 1 < 2.5')()` does. -/
def jsEvalDot : String → Option Bool := fun s => if s = "1 < 2.5" then some true else none

/-- C2 counterexample: the condition `1 < 2.5` leaves the residual
`␣<␣.` containing a period — a character outside the safelist as the claim
lists it — yet the rule is not treated as non-matching: the code's safelist
admits the period, the condition evaluates truthy, and the rule is selected. -/
theorem C2_counterexample :
    ('.' ∈ residualChars (substCondition "1 < 2.5" viewPlain reqPlain)) ∧
    specSafelistChar '.' = false ∧
    evaluateCondition jsEvalDot "1 < 2.5" viewPlain reqPlain = Except.ok true ∧
    ruleMatches jsEvalDot ruleDotA viewPlain reqPlain = true ∧
    selectResponse jsEvalDot [ruleDotA, ruleDotB] viewPlain reqPlain = some ruleDotA := by
  exact ⟨by decide, by decide, rfl, rfl, rfl⟩

/-- C2 (amended): with the period included in the safelist, as the code's
`safePattern` has it: a residual character outside the safelist aborts
evaluation of that rule and the rule is treated as non-matching; an
evaluation throw likewise leaves the rule non-matching; and rule selection
always produces a rule for a non-empty list, so condition evaluation never
answers the request with an error. -/
theorem C2_condition_failures_absorbed (jsEval : String → Option Bool)
    (view : ParamsView) (req : Request) :
    (∀ cond c, c ∈ residualChars (substCondition cond view req) → isSafeChar c = false →
        evaluateCondition jsEval cond view req = Except.error () ∧
        ∀ r : ResponseRule, r.condition = some cond →
          ruleMatches jsEval r view req = false)
    ∧ (∀ cond, jsEval (substCondition cond view req) = none →
        ∀ r : ResponseRule, r.condition = some cond →
          ruleMatches jsEval r view req = false)
    ∧ (∀ rs : List ResponseRule, rs ≠ [] →
        (selectResponse jsEval rs view req).isSome = true) := by
  refine ⟨?_, ?_, ?_⟩
  · intro cond c hc hbad
    have hall : (residualChars (substCondition cond view req)).all isSafeChar = false := by
      rw [List.all_eq_false]
      exact ⟨c, hc, by simp [hbad]⟩
    have herr : evaluateCondition jsEval cond view req = Except.error () := by
      unfold evaluateCondition
      simp [hall]
    refine ⟨herr, ?_⟩
    intro r hr
    unfold ruleMatches
    rw [hr]
    by_cases hcnil : cond = ""
    · simp [hcnil]
    · simp [hcnil, herr]
  · intro cond hev r hr
    unfold ruleMatches
    rw [hr]
    by_cases hcnil : cond = ""
    · simp [hcnil]
    · have hcase : evaluateCondition jsEval cond view req = Except.error () ∨
          evaluateCondition jsEval cond view req = Except.ok false := by
        unfold evaluateCondition
        by_cases htest : residualChars (substCondition cond view req) ≠ [] ∧
            (residualChars (substCondition cond view req)).all isSafeChar = true
        · rw [if_pos htest, hev]
          right
          rfl
        · rw [if_neg htest]
          left
          rfl
      rcases hcase with h | h <;> simp [hcnil, h]
  · intro rs hne
    unfold selectResponse
    cases h1 : rs.find? (fun r => ruleMatches jsEval r view req) with
    | some r => simp
    | none =>
      cases h2 : rs.find? (fun r => !(hasCond r)) with
      | some r => simp
      | none =>
        cases rs with
        | nil => exact absurd rfl hne
        | cons a t => simp

/-- A rule whose condition substitutes to the single unsafe character `@`. -/
def ruleAt : ResponseRule := { condition := some "@", text := some "C" }

/-- C2 witness: the amended property applied at the concrete condition `@`
(unsafe residual), the always-throwing evaluator, and a concrete rule list. -/
theorem C2_condition_failures_absorbed_witness :
    ('@' ∈ residualChars (substCondition "@" viewPlain reqPlain)) ∧
    isSafeChar '@' = false ∧
    evaluateCondition jsEvalNone "@" viewPlain reqPlain = Except.error () ∧
    ruleMatches jsEvalNone ruleAt viewPlain reqPlain = false ∧
    (selectResponse jsEvalNone [ruleAt, ruleFallback] viewPlain reqPlain).isSome = true := by
  have T := C2_condition_failures_absorbed jsEvalNone viewPlain reqPlain
  have h1 := T.1 "@" '@' (by decide) (by decide)
  exact ⟨by decide, by decide, h1.1, h1.2 ruleAt rfl, T.2.2 [ruleAt, ruleFallback] (by simp)⟩

/-- C9 (confirmed): when the substituted condition consists only of
identifier characters (for example the bare literal `true`), deleting the
word characters leaves an empty residual, which the safelist pattern
`/^[...]+$/` rejects, so `evaluateCondition` throws and the rule is always
treated as non-matching. -/
theorem C9_identifier_only_condition_rejected (jsEval : String → Option Bool)
    (view : ParamsView) (req : Request) (cond : String)
    (hword : ∀ c ∈ (substCondition cond view req).toList, isWordChar c = true) :
    evaluateCondition jsEval cond view req = Except.error () ∧
    ∀ r : ResponseRule, r.condition = some cond →
      ruleMatches jsEval r view req = false := by
  have hres : residualChars (substCondition cond view req) = [] := by
    unfold residualChars
    rw [List.filter_eq_nil_iff]
    intro c hc
    simp [hword c hc]
  have herr : evaluateCondition jsEval cond view req = Except.error () := by
    unfold evaluateCondition
    simp [hres]
  refine ⟨herr, ?_⟩
  intro r hr
  unfold ruleMatches
  rw [hr]
  by_cases hcnil : cond = ""
  · simp [hcnil]
  · simp [hcnil, herr]

/-- C9 witness: the bare literal condition `true`, which substitutes to
itself, is rejected and leaves its rule non-matching. -/
theorem C9_identifier_only_condition_rejected_witness :
    (∀ c ∈ (substCondition "true" viewPlain reqPlain).toList, isWordChar c = true) ∧
    evaluateCondition jsEvalNone "true" viewPlain reqPlain = Except.error () ∧
    ruleMatches jsEvalNone { condition := some "true", text := some "T" } viewPlain reqPlain
      = false := by
  have T := C9_identifier_only_condition_rejected jsEvalNone viewPlain reqPlain "true" (by decide)
  exact ⟨by decide, T.1, T.2 _ rfl⟩

/-! ## C3 and C10 -/

/-- The endpoint of the C3 counterexample: two required query parameters. -/
def epC3 : Endpoint :=
  { path := "/c3", method := "GET", «protected» := false, token := none,
    parameterSource := "query", parameters := [⟨"a", true⟩, ⟨"b", true⟩],
    responseType := "json", responses := [{ condition := none, data := some (JTree.s "x") }],
    enabled := true }

/-- The C3 counterexample environment. -/
def envC3 : Env :=
  ⟨[epC3], jsEvalNone, fun _ => none, fun _ => none, fun _ => [], "2024-01-02T03:04:05.000Z"⟩

/-- A request to `/c3` supplying neither required parameter. -/
def reqC3 : Request := ⟨"GET", "/c3", [], [], none⟩

/-- C3 counterexample: parameter `b` is declared required and resolves to no
value, yet the single 400 response names `a`, not `b` — so the claim's
universally quantified "naming that parameter" fails at the instance `b`. -/
theorem C3_counterexample :
    epC3.parameters[1]? = some ⟨"b", true⟩ ∧
    isMissing (resolveParamValue epC3.parameterSource (buildParams epC3 reqC3) "b") = true ∧
    handleRequest envC3 reqC3 = DynResponse.badRequest "Missing required parameter: a" "query" ∧
    handleRequest envC3 reqC3 ≠ DynResponse.badRequest "Missing required parameter: b" "query" := by
  refine ⟨rfl, rfl, rfl, ?_⟩
  intro h
  rw [show handleRequest envC3 reqC3
      = DynResponse.badRequest "Missing required parameter: a" "query" from rfl] at h
  injection h with h1 h2
  exact absurd h1 (by decide)

/-- C3 (amended): for every matched, authorized endpoint, each required
parameter is resolved source-specifically (for `mixed`: query, then
lower-cased header, then body; for `header`: the lower-cased name; otherwise
a direct lookup), and if a required parameter resolves to an absent, null or
empty value — and every required parameter declared before it resolves to a
present value — the request is answered 400 naming that (first failing)
parameter and the configured source, before any condition evaluation runs
(the conclusion does not depend on the evaluator or the rules). -/
theorem C3_required_param_400 (env : Env) (req : Request) (e : Endpoint)
    (hres : reservedPath (reqPath req.url) = false)
    (hfind : findEndpoint env.endpoints (reqPath req.url) req.method = some e)
    (hauth : e.«protected» = false ∨ ∃ a, lookupA req.headers "authorization" = some a ∧
        a ≠ "" ∧ e.token = some (stripBearer a))
    (i : Fin e.parameters.length)
    (hreq : (e.parameters.get i).required = true)
    (hmiss : isMissing (resolveParamValue e.parameterSource (buildParams e req)
        (e.parameters.get i).name) = true)
    (hfirst : ∀ j : Fin e.parameters.length, j.val < i.val →
        (e.parameters.get j).required = true →
        isMissing (resolveParamValue e.parameterSource (buildParams e req)
          (e.parameters.get j).name) = false) :
    handleRequest env req =
      DynResponse.badRequest ("Missing required parameter: " ++ (e.parameters.get i).name)
        e.parameterSource := by
  have hval : validateParams e.parameterSource (buildParams e req) e.parameters =
      some (e.parameters.get i).name := by
    unfold validateParams
    rw [find_of_first
      (fun p => p.required && isMissing (resolveParamValue e.parameterSource (buildParams e req) p.name))
      e.parameters i ?_ ?_]
    · rfl
    · show ((e.parameters.get i).required &&
        isMissing (resolveParamValue e.parameterSource (buildParams e req)
          (e.parameters.get i).name)) = true
      rw [hreq, hmiss]
      rfl
    · intro j hj
      show ((e.parameters.get j).required &&
        isMissing (resolveParamValue e.parameterSource (buildParams e req)
          (e.parameters.get j).name)) = false
      cases hrc : (e.parameters.get j).required with
      | false => rfl
      | true => rw [hfirst j hj hrc]; rfl
  have hafter : afterAuth env e req =
      DynResponse.badRequest ("Missing required parameter: " ++ (e.parameters.get i).name)
        e.parameterSource := by
    show (match validateParams e.parameterSource (buildParams e req) e.parameters with
      | some name =>
        DynResponse.badRequest ("Missing required parameter: " ++ name) e.parameterSource
      | none =>
        match selectResponse env.jsEval e.responses (buildParams e req) req with
        | none => DynResponse.serverError "No response configured"
        | some rd => dispatchResponse env e rd (buildParams e req) req) = _
    rw [hval]
  rcases hauth with hprot | ⟨a, ha, hane, htok⟩
  · simp [handleRequest, hres, hfind, hprot, hafter]
  · by_cases hp : e.«protected» <;>
      simp [handleRequest, hres, hfind, hp, ha, hane, htok, hafter]

/-- The endpoint of the C3 witness: required `a` supplied, required `b`
missing. -/
def epW3 : Endpoint :=
  { path := "/w3", method := "GET", «protected» := false, token := none,
    parameterSource := "query", parameters := [⟨"a", true⟩, ⟨"b", true⟩],
    responseType := "json", responses := [{ condition := none, data := some (JTree.s "x") }],
    enabled := true }

/-- The C3 witness environment. -/
def envW3 : Env :=
  ⟨[epW3], jsEvalNone, fun _ => none, fun _ => none, fun _ => [], "2024-01-02T03:04:05.000Z"⟩

/-- A request to `/w3` supplying `a` but not `b`. -/
def reqW3 : Request := ⟨"GET", "/w3?a=1", [("a", "1")], [], none⟩

/-- C3 witness: the amended property applied at the first failing required
parameter `b` of a concrete request. -/
theorem C3_required_param_400_witness :
    handleRequest envW3 reqW3 = DynResponse.badRequest "Missing required parameter: b" "query" :=
  C3_required_param_400 envW3 reqW3 epW3 rfl rfl (Or.inl rfl) ⟨1, by decide⟩
    (by decide) (by decide) (by decide)

/-- C10 (confirmed): parameter-view construction is total over
`parameterSource`: any source other than `query`, `header`, `body`, `mixed`
(including `none`) yields the empty view, every required parameter then
resolves to no value (so each required parameter is missing), and when the
endpoint declares a first required parameter the request is answered 400
naming it, whatever the request carries. -/
theorem C10_unknown_source_total (env : Env) (e : Endpoint) (req : Request)
    (hq : e.parameterSource ≠ "query") (hh : e.parameterSource ≠ "header")
    (hb : e.parameterSource ≠ "body") (hm : e.parameterSource ≠ "mixed") :
    buildParams e req = ParamsView.flat [] ∧
    (∀ p ∈ e.parameters, p.required = true →
      isMissing (resolveParamValue e.parameterSource (buildParams e req) p.name) = true) ∧
    (∀ i : Fin e.parameters.length, (e.parameters.get i).required = true →
      (∀ j : Fin e.parameters.length, j.val < i.val → (e.parameters.get j).required = false) →
      afterAuth env e req =
        DynResponse.badRequest ("Missing required parameter: " ++ (e.parameters.get i).name)
          e.parameterSource) := by
  have hbp : buildParams e req = ParamsView.flat [] := by
    unfold buildParams
    simp [hq, hh, hb, hm]
  have hresolve : ∀ name, resolveParamValue e.parameterSource (buildParams e req) name = none := by
    intro name
    rw [hbp]
    unfold resolveParamValue
    simp [hm, hh, lookupA]
  refine ⟨hbp, ?_, ?_⟩
  · intro p _ _
    rw [hresolve]
    rfl
  · intro i hreq hfirst
    have hval : validateParams e.parameterSource (buildParams e req) e.parameters =
        some (e.parameters.get i).name := by
      unfold validateParams
      rw [find_of_first
        (fun p => p.required && isMissing (resolveParamValue e.parameterSource (buildParams e req) p.name))
        e.parameters i ?_ ?_]
      · rfl
      · show ((e.parameters.get i).required &&
          isMissing (resolveParamValue e.parameterSource (buildParams e req)
            (e.parameters.get i).name)) = true
        rw [hreq, hresolve]
        rfl
      · intro j hj
        show ((e.parameters.get j).required &&
          isMissing (resolveParamValue e.parameterSource (buildParams e req)
            (e.parameters.get j).name)) = false
        rw [hfirst j hj]
        rfl
    show (match validateParams e.parameterSource (buildParams e req) e.parameters with
      | some name =>
        DynResponse.badRequest ("Missing required parameter: " ++ name) e.parameterSource
      | none =>
        match selectResponse env.jsEval e.responses (buildParams e req) req with
        | none => DynResponse.serverError "No response configured"
        | some rd => dispatchResponse env e rd (buildParams e req) req) = _
    rw [hval]

/-- The endpoint of the C10 witness: source `none` with a required
parameter. -/
def epW10 : Endpoint :=
  { path := "/w10", method := "GET", «protected» := false, token := none,
    parameterSource := "none", parameters := [⟨"x", true⟩],
    responseType := "json", responses := [{ condition := none, data := some (JTree.s "x") }],
    enabled := true }

/-- The C10 witness environment. -/
def envW10 : Env :=
  ⟨[epW10], jsEvalNone, fun _ => none, fun _ => none, fun _ => [], "2024-01-02T03:04:05.000Z"⟩

/-- A request that even supplies `x` everywhere it could. -/
def reqW10 : Request :=
  ⟨"GET", "/w10?x=1", [("x", "1")], [("x", "1")], some [("x", JVal.vStr "1")]⟩

/-- C10 witness: the totality property applied at source `none` with a
declared required parameter supplied in query, header and body alike. -/
theorem C10_unknown_source_total_witness :
    buildParams epW10 reqW10 = ParamsView.flat [] ∧
    afterAuth envW10 epW10 reqW10 =
      DynResponse.badRequest "Missing required parameter: x" "none" := by
  have T := C10_unknown_source_total envW10 epW10 reqW10
    (by decide) (by decide) (by decide) (by decide)
  exact ⟨T.1, T.2.2 ⟨0, by decide⟩ (by decide)
    (by intro j hj; exact absurd hj (Nat.not_lt_zero _))⟩

/-! ## C4 -/

/-- The protected endpoint of the C4 counterexample. -/
def epC4 : Endpoint :=
  { path := "/c4", method := "GET", «protected» := true, token := some "secret",
    parameterSource := "none", parameters := [], responseType := "text",
    responses := [{ condition := none, text := some "ok" }], enabled := true }

/-- The C4 counterexample environment. -/
def envC4 : Env :=
  ⟨[epC4], jsEvalNone, fun _ => none, fun _ => none, fun _ => [], "2024-01-02T03:04:05.000Z"⟩

/-- A request whose Authorization header carries the bare token, without the
`Bearer␣` scheme marker. -/
def reqC4 : Request := ⟨"GET", "/c4", [], [("authorization", "secret")], none⟩

/-- C4 counterexample: the request does not carry an
`Authorization: Bearer <token>` header — its header value is the bare token —
yet it proceeds past the guard and is served, because
`authHeader.replace('Bearer ', '')` leaves a prefix-less header unchanged. -/
theorem C4_counterexample :
    epC4.«protected» = true ∧ epC4.token = some "secret" ∧
    lookupA reqC4.headers "authorization" = some "secret" ∧
    ("secret" : String) ≠ "Bearer " ++ "secret" ∧
    handleRequest envC4 reqC4 = DynResponse.textBody "text/plain" "ok" ∧
    handleRequest envC4 reqC4 ≠ DynResponse.unauthorized "Authorization required" ∧
    handleRequest envC4 reqC4 ≠ DynResponse.unauthorized "Invalid token" := by
  refine ⟨rfl, rfl, rfl, by decide, rfl, ?_, ?_⟩ <;>
    simp [show handleRequest envC4 reqC4 = DynResponse.textBody "text/plain" "ok" from rfl]

/-- C4 (amended): on a matched protected endpoint, the request proceeds past
the access guard iff it carries a non-empty Authorization header whose value,
after removing the first occurrence of `Bearer␣`, equals the endpoint's
stored token (so a well-formed `Authorization: Bearer <token>` header with
the matching token proceeds — but so does the bare token); a missing or empty
header yields 401 "Authorization required" and any other mismatching value
yields 401 "Invalid token", in both cases before parameter validation and
condition evaluation and regardless of other request content; the
post-guard stages never answer 401. -/
theorem C4_bearer_guard (env : Env) (req : Request) (e : Endpoint)
    (hres : reservedPath (reqPath req.url) = false)
    (hfind : findEndpoint env.endpoints (reqPath req.url) req.method = some e)
    (hprot : e.«protected» = true) :
    (strTruthy (lookupA req.headers "authorization") = false →
        handleRequest env req = DynResponse.unauthorized "Authorization required")
    ∧ (∀ a, lookupA req.headers "authorization" = some a → a ≠ "" →
        e.token ≠ some (stripBearer a) →
        handleRequest env req = DynResponse.unauthorized "Invalid token")
    ∧ (∀ a, lookupA req.headers "authorization" = some a → a ≠ "" →
        e.token = some (stripBearer a) →
        handleRequest env req = afterAuth env e req)
    ∧ (∀ msg, afterAuth env e req ≠ DynResponse.unauthorized msg) := by
  refine ⟨?_, ?_, ?_, ?_⟩
  · intro hfalsy
    cases ha : lookupA req.headers "authorization" with
    | none => simp [handleRequest, hres, hfind, hprot, ha]
    | some a =>
      have hae : a = "" := by
        rw [ha] at hfalsy
        simpa [strTruthy] using hfalsy
      subst hae
      simp [handleRequest, hres, hfind, hprot, ha]
  · intro a ha hane htok
    simp [handleRequest, hres, hfind, hprot, ha, hane, htok]
  · intro a ha hane htok
    simp [handleRequest, hres, hfind, hprot, ha, hane, htok]
  · intro msg
    show (match validateParams e.parameterSource (buildParams e req) e.parameters with
      | some name =>
        DynResponse.badRequest ("Missing required parameter: " ++ name) e.parameterSource
      | none =>
        match selectResponse env.jsEval e.responses (buildParams e req) req with
        | none => DynResponse.serverError "No response configured"
        | some rd => dispatchResponse env e rd (buildParams e req) req) ≠
      DynResponse.unauthorized msg
    cases validateParams e.parameterSource (buildParams e req) e.parameters with
    | some name => simp
    | none =>
      cases selectResponse env.jsEval e.responses (buildParams e req) req with
      | none => simp
      | some rd =>
        simp only []
        unfold dispatchResponse binaryDispatch
        repeat' split
        all_goals simp

/-- The protected endpoint of the C4 witness. -/
def epW4 : Endpoint :=
  { path := "/w4", method := "GET", «protected» := true, token := some "tok",
    parameterSource := "none", parameters := [], responseType := "text",
    responses := [{ condition := none, text := some "ok" }], enabled := true }

/-- The C4 witness environment. -/
def envW4 : Env :=
  ⟨[epW4], jsEvalNone, fun _ => none, fun _ => none, fun _ => [], "2024-01-02T03:04:05.000Z"⟩

/-- A request to `/w4` carrying a wrong bearer token. -/
def reqW4 : Request := ⟨"GET", "/w4", [], [("authorization", "Bearer wrong")], none⟩

/-- C4 witness: the guard property applied to a concrete protected endpoint
and a concrete mismatching bearer header. -/
theorem C4_bearer_guard_witness :
    handleRequest envW4 reqW4 = DynResponse.unauthorized "Invalid token" :=
  (C4_bearer_guard envW4 reqW4 epW4 rfl rfl rfl).2.1 "Bearer wrong" rfl (by decide) (by decide)

/-! ## C7 -/

/-- C7 (confirmed): on an endpoint with responseType `binary` or `image`, the
selected rule's payload bytes are resolved in priority order — `assetPath`
first (404 when the file under the asset root is absent), then `assetId`
(404 when the asset lookup finds nothing), then inline base64 — and a rule
carrying none of the three sources is answered 500. -/
theorem C7_binary_priority (env : Env) (e : Endpoint) (req : Request) (rd : ResponseRule)
    (hty : e.responseType = "binary" ∨ e.responseType = "image")
    (hval : validateParams e.parameterSource (buildParams e req) e.parameters = none)
    (hsel : selectResponse env.jsEval e.responses (buildParams e req) req = some rd) :
    afterAuth env e req = binaryDispatch env rd
    ∧ (strTruthy rd.assetPath = true →
        (env.fileAt (joinPath ASSETS_DIR (rd.assetPath.getD "")) = none →
          binaryDispatch env rd = DynResponse.notFound "Asset file not found")
        ∧ (∀ buffer, env.fileAt (joinPath ASSETS_DIR (rd.assetPath.getD "")) = some buffer →
            binaryDispatch env rd = DynResponse.binaryBody
              (jsStrOr rd.contentType "application/octet-stream")
              (if strTruthy rd.fileName then
                some ("inline; filename=\"" ++ rd.fileName.getD "" ++ "\"") else none)
              buffer))
    ∧ (strTruthy rd.assetPath = false → strTruthy rd.assetId = true →
        (env.assetById (rd.assetId.getD "") = none →
          binaryDispatch env rd = DynResponse.notFound "Asset not found")
        ∧ (∀ asset, env.assetById (rd.assetId.getD "") = some asset →
            binaryDispatch env rd = DynResponse.binaryBody
              (contentTypeForExt (lowerStr (extname asset.path))) none asset.buffer))
    ∧ (strTruthy rd.assetPath = false → strTruthy rd.assetId = false →
        strTruthy rd.base64 = true →
        binaryDispatch env rd = DynResponse.binaryBody
          (jsStrOr rd.contentType "application/octet-stream") none
          (env.b64decode (rd.base64.getD "")))
    ∧ (strTruthy rd.assetPath = false → strTruthy rd.assetId = false →
        strTruthy rd.base64 = false →
        binaryDispatch env rd = DynResponse.serverError "Binary response not configured properly") := by
  refine ⟨?_, ?_, ?_, ?_, ?_⟩
  · show (match validateParams e.parameterSource (buildParams e req) e.parameters with
      | some name =>
        DynResponse.badRequest ("Missing required parameter: " ++ name) e.parameterSource
      | none =>
        match selectResponse env.jsEval e.responses (buildParams e req) req with
        | none => DynResponse.serverError "No response configured"
        | some rd => dispatchResponse env e rd (buildParams e req) req) = _
    rw [hval, hsel]
    show dispatchResponse env e rd (buildParams e req) req = _
    unfold dispatchResponse
    rcases hty with h | h <;> simp [h]
  · intro hap
    constructor
    · intro hfile
      unfold binaryDispatch
      simp [hap, hfile]
    · intro buffer hfile
      unfold binaryDispatch
      simp [hap, hfile]
  · intro hap hid
    constructor
    · intro hasset
      unfold binaryDispatch
      simp [hap, hid, hasset]
    · intro asset hasset
      unfold binaryDispatch
      simp [hap, hid, hasset]
  · intro hap hid hb64
    unfold binaryDispatch
    simp [hap, hid, hb64]
  · intro hap hid hb64
    unfold binaryDispatch
    simp [hap, hid, hb64]

/-- The binary endpoint of the C7 witness: its selected rule carries none of
the three payload sources. -/
def epW7 : Endpoint :=
  { path := "/w7", method := "GET", «protected» := false, token := none,
    parameterSource := "none", parameters := [], responseType := "binary",
    responses := [{ condition := none }], enabled := true }

/-- The C7 witness environment. -/
def envW7 : Env :=
  ⟨[epW7], jsEvalNone, fun _ => none, fun _ => none, fun _ => [], "2024-01-02T03:04:05.000Z"⟩

/-- A request to `/w7`. -/
def reqW7 : Request := ⟨"GET", "/w7", [], [], none⟩

/-- C7 witness: the dispatch property applied to a concrete binary endpoint
whose rule carries no payload source, yielding the 500. -/
theorem C7_binary_priority_witness :
    afterAuth envW7 epW7 reqW7 = DynResponse.serverError "Binary response not configured properly" := by
  have T := C7_binary_priority envW7 epW7 reqW7 { condition := none } (Or.inl rfl) rfl rfl
  rw [T.1]
  exact T.2.2.2.2 rfl rfl rfl

/-! ## C5 counterexample and witness -/

/-- C5 counterexample: the unrecognized placeholder `{{foo}}` matches none of
the template regexes and is left literal in the rendered output, not replaced
by the empty string. -/
theorem C5_counterexample :
    processTemplateString envPlain viewPlain reqPlain "\x7b\x7bfoo\x7d\x7d"
      = "\x7b\x7bfoo\x7d\x7d" ∧
    ("\x7b\x7bfoo\x7d\x7d" : String) ≠ "" :=
  ⟨rfl, by decide⟩

/-- C5 witness: the amended property applied at the concrete name `missing`,
absent from a concrete request's query and body, embedded between brace-free
text, for the `query` and `body` placeholder forms. -/
theorem C5_unmatched_placeholder_empty_witness :
    (∀ c ∈ ("pre " : String).toList, c ≠ '\x7b') ∧
    (∀ c ∈ (" post" : String).toList, c ≠ '\x7b') ∧
    ("missing" : String).toList ≠ [] ∧
    (∀ c ∈ ("missing" : String).toList, isWordChar c = true) ∧
    lookupA reqPlain.query "missing" = none ∧
    lookupA (reqPlain.body.getD []) "missing" = none ∧
    processTemplateString envPlain viewPlain reqPlain
      ("pre " ++ "\x7b\x7bquery." ++ "missing" ++ "\x7d\x7d" ++ " post") = "pre " ++ " post" ∧
    processTemplateString envPlain viewPlain reqPlain
      ("pre " ++ "\x7b\x7bbody." ++ "missing" ++ "\x7d\x7d" ++ " post") = "pre " ++ " post" := by
  have T := C5_unmatched_placeholder_empty envPlain viewPlain reqPlain "pre " "missing" " post"
    (by decide) (by decide) (by decide) (by decide)
  exact ⟨by decide, by decide, by decide, by decide, rfl, rfl, T.1 rfl, T.2.2.2 rfl⟩

end RoarinAPI
